import Mathlib

/-!
Verification development for the inverse-kinematics solver in
`AnimInverseKinematics.cpp`.

Scalars are exact rationals.  Library routines that are not part of the
translated file (square roots, trigonometric functions, spline arc lengths,
quaternion averaging, basis generation) are supplied through an `Oracle`
parameter, so the structural theorems below hold for every realisation of
those routines; theorems that genuinely depend on the value of a square root
take the characterising equations as hypotheses.
-/

unseal Rat.add Rat.mul Rat.sub Rat.inv Rat.ofScientific

namespace HifiIK

/-- Exact-rational 3-component vector, standing for glm::vec3. -/
structure Vec3 where
  x : ℚ
  y : ℚ
  z : ℚ
deriving DecidableEq

namespace Vec3

def zero : Vec3 := ⟨0, 0, 0⟩

def add (a b : Vec3) : Vec3 := ⟨a.x + b.x, a.y + b.y, a.z + b.z⟩

def sub (a b : Vec3) : Vec3 := ⟨a.x - b.x, a.y - b.y, a.z - b.z⟩

def neg (a : Vec3) : Vec3 := ⟨-a.x, -a.y, -a.z⟩

def scale (c : ℚ) (a : Vec3) : Vec3 := ⟨c * a.x, c * a.y, c * a.z⟩

/-- glm `vec -= scalar` subtracts the scalar from every component. -/
def subScalar (a : Vec3) (c : ℚ) : Vec3 := ⟨a.x - c, a.y - c, a.z - c⟩

def dot (a b : Vec3) : ℚ := a.x * b.x + a.y * b.y + a.z * b.z

def cross (a b : Vec3) : Vec3 :=
  ⟨a.y * b.z - a.z * b.y, a.z * b.x - a.x * b.z, a.x * b.y - a.y * b.x⟩

def normSq (a : Vec3) : ℚ := dot a a

/-- glm::lerp for vectors: x + t (y - x). -/
def lerp (a b : Vec3) (t : ℚ) : Vec3 := add a (scale t (sub b a))

def unitX : Vec3 := ⟨1, 0, 0⟩
def unitY : Vec3 := ⟨0, 1, 0⟩
def unitZ : Vec3 := ⟨0, 0, 1⟩

end Vec3

instance : Add Vec3 := ⟨Vec3.add⟩
instance : Sub Vec3 := ⟨Vec3.sub⟩
instance : Neg Vec3 := ⟨Vec3.neg⟩

/-- Exact-rational inverse with a kernel-computable normal form (the library
inverse on ℚ is sealed against unfolding); equal to the field inverse, see
qinv_eq. -/
def qinv (a : ℚ) : ℚ :=
  if a.num < 0 then mkRat (-(a.den : Int)) a.num.natAbs
  else mkRat (a.den : Int) a.num.natAbs

/-- Exact-rational division with a kernel-computable normal form; equal to
field division, see qdiv_eq.  Like C float division of the source, except
exact (and total: division by zero yields 0, which every use below guards
with an epsilon test exactly as the source does). -/
def qdiv (a b : ℚ) : ℚ := a * qinv b

/-- Exact-rational quaternion, standing for glm::quat (components w,x,y,z). -/
structure Quat where
  w : ℚ
  x : ℚ
  y : ℚ
  z : ℚ
deriving DecidableEq

namespace Quat

/-- Identity quaternion, glm::quat() / Quaternions::IDENTITY. -/
def one : Quat := ⟨1, 0, 0, 0⟩

/-- Hamilton product, glm `operator*` on quaternions. -/
def mul (p q : Quat) : Quat :=
  ⟨p.w * q.w - p.x * q.x - p.y * q.y - p.z * q.z,
   p.w * q.x + p.x * q.w + p.y * q.z - p.z * q.y,
   p.w * q.y + p.y * q.w + p.z * q.x - p.x * q.z,
   p.w * q.z + p.z * q.w + p.x * q.y - p.y * q.x⟩

def conj (q : Quat) : Quat := ⟨q.w, -q.x, -q.y, -q.z⟩

def normSq (q : Quat) : ℚ := q.w * q.w + q.x * q.x + q.y * q.y + q.z * q.z

def scale (c : ℚ) (q : Quat) : Quat := ⟨c * q.w, c * q.x, c * q.y, c * q.z⟩

/-- glm::inverse on quaternions: conjugate divided by the squared norm. -/
def inverse (q : Quat) : Quat := scale (qinv (normSq q)) (conj q)

def neg (q : Quat) : Quat := ⟨-q.w, -q.x, -q.y, -q.z⟩

def add (p q : Quat) : Quat := ⟨p.w + q.w, p.x + q.x, p.y + q.y, p.z + q.z⟩

/-- 4-dimensional dot product of quaternions (glm::dot on quat). -/
def dot4 (p q : Quat) : ℚ := p.w * q.w + p.x * q.x + p.y * q.y + p.z * q.z

/-- glm::lerp on quaternions: componentwise x (1-a) + y a. -/
def lerp (p q : Quat) (t : ℚ) : Quat := add (scale (1 - t) p) (scale t q)

/-- glm `quat * vec3`: v + 2 (w (u × v) + u × (u × v)) with u the vector part. -/
def rotate (q : Quat) (v : Vec3) : Vec3 :=
  let u : Vec3 := ⟨q.x, q.y, q.z⟩
  let uv := Vec3.cross u v
  let uuv := Vec3.cross u uv
  v + Vec3.scale 2 (Vec3.scale q.w uv + uuv)

/-- copysignf(1.0f, w): -1 for negative w, +1 otherwise. -/
def dotSign (wc : ℚ) : ℚ := if wc < 0 then -1 else 1

end Quat

/-- Modelled from the spec: `AnimPose` (its source is not under src/).  A pose
is a translation plus a unit rotation, scale fixed at 1. -/
structure Pose where
  rot : Quat
  trans : Vec3
deriving DecidableEq

namespace Pose

/-- Identity pose. -/
def id : Pose := ⟨Quat.one, Vec3.zero⟩

/-- Modelled from the spec: pose composition is rotation-then-translate
(affine): Absolute = Absolute(parent) ∘ Relative(child). -/
def comp (p q : Pose) : Pose :=
  ⟨Quat.mul p.rot q.rot, p.trans + Quat.rotate p.rot q.trans⟩

/-- Modelled from the spec: `AnimPose::inverse`, the two-sided inverse of
`comp` for unit rotations. -/
def inv (p : Pose) : Pose :=
  ⟨Quat.inverse p.rot, Vec3.neg (Quat.rotate (Quat.inverse p.rot) p.trans)⟩

/-- AnimPose::xformVector with unit scale: rotate a direction. -/
def xformVector (p : Pose) (v : Vec3) : Vec3 := Quat.rotate p.rot v

end Pose

/-- Numeric routines from libraries that are not under src/ (GLMHelpers,
CubicHermiteSpline arc lengths, glm transcendentals, AnimUtil averaging).
The structural claims hold for every instantiation of these fields. -/
structure Oracle where
  sqrtQ : ℚ → ℚ
  acosQ : ℚ → ℚ
  sinQ : ℚ → ℚ
  cosQ : ℚ → ℚ
  powQ : ℚ → ℚ → ℚ
  avgRot : List (Quat × ℚ) → Quat
  arcLen : Vec3 → Vec3 → Vec3 → Vec3 → ℚ → ℚ
  arcLenInv : Vec3 → Vec3 → Vec3 → Vec3 → ℚ → ℚ
  quatCast : Vec3 → Vec3 → Vec3 → Quat
  basisFromYX : Vec3 → Vec3 → Vec3 × Vec3

namespace Oracle

/-- glm::length of a vector. -/
def lengthV (O : Oracle) (v : Vec3) : ℚ := O.sqrtQ (Vec3.normSq v)

/-- glm::length of a quaternion. -/
def lengthQ (O : Oracle) (q : Quat) : ℚ := O.sqrtQ (Quat.normSq q)

/-- glm::normalize on vectors (no zero-length guard in glm). -/
def normalizeV (O : Oracle) (v : Vec3) : Vec3 :=
  Vec3.scale (qinv (O.lengthV v)) v

/-- glm::normalize on quaternions: glm returns the identity when the length
is not positive. -/
def normalizeQ (O : Oracle) (q : Quat) : Quat :=
  let len := O.lengthQ q
  if len ≤ 0 then Quat.one else Quat.scale (qinv len) q

/-- glm::angleAxis: quat(cos(angle/2), sin(angle/2) · axis). -/
def angleAxis (O : Oracle) (angle : ℚ) (axis : Vec3) : Quat :=
  let s := O.sinQ (angle * mkRat 1 2)
  ⟨O.cosQ (angle * mkRat 1 2), s * axis.x, s * axis.y, s * axis.z⟩

/-- easeOutExpo from AnimInverseKinematics.cpp: 1 - 2^(-10 t). -/
def easeOutExpo (O : Oracle) (t : ℚ) : ℚ := 1 - O.powQ 2 (-10 * t)

/-- swingTwistDecomposition from GLMHelpers (not under src/): twist is the
normalised projection of the rotation onto the axis, swing the remainder. -/
def swingTwist (O : Oracle) (q : Quat) (axis : Vec3) : Quat × Quat :=
  let proj := Vec3.scale (Vec3.dot ⟨q.x, q.y, q.z⟩ axis) axis
  let twist := O.normalizeQ ⟨q.w, proj.x, proj.y, proj.z⟩
  (Quat.mul q (Quat.inverse twist), twist)

end Oracle

/-- Pointwise update of a function-modelled array (a single in-place store). -/
def upd {α : Type} (f : ℕ → α) (i : ℕ) (a : α) : ℕ → α :=
  fun j => if j = i then a else f j

/-- Weighted-sample accumulator (RotationAccumulator / TranslationAccumulator,
not under src/).  Modelled from the spec: collects weighted samples; the dirty
flag records whether any sample was ever added since the last clearAndClean
(plain clear empties the samples but keeps the flag, which is how the solver
distinguishes IK-affected joints from passthrough joints across frames). -/
structure Accum (α : Type) where
  samples : List (α × ℚ)
  dirty : Bool
deriving DecidableEq

namespace Accum

def empty {α : Type} : Accum α := ⟨[], false⟩

def add {α : Type} (a : Accum α) (v : α) (w : ℚ) : Accum α :=
  ⟨(v, w) :: a.samples, true⟩

def size {α : Type} (a : Accum α) : ℕ := a.samples.length

def clear {α : Type} (a : Accum α) : Accum α := ⟨[], a.dirty⟩

def clearAndClean {α : Type} (_ : Accum α) : Accum α := ⟨[], false⟩

def isDirty {α : Type} (a : Accum α) : Bool := a.dirty

end Accum

/-- RotationAccumulator::getAverage — spherical weighted average, supplied by
the oracle (its source is not under src/). -/
def rotAverage (O : Oracle) (a : Accum Quat) : Quat := O.avgRot a.samples

/-- Modelled from the spec: TranslationAccumulator::getAverage, the normalised
weighted average of the collected samples (not under src/). -/
def transAverage (a : Accum Vec3) : Vec3 :=
  let total := a.samples.foldl (fun acc s => acc + s.2) 0
  let sum := a.samples.foldl (fun acc s => acc + Vec3.scale s.2 s.1) Vec3.zero
  Vec3.scale (qinv total) sum

/-- IKTarget::Type, in the declaration order given by the spec. -/
inductive TargetType where
  | RotationAndPosition
  | RotationOnly
  | HmdHead
  | HipsRelativeRotationAndPosition
  | Spline
  | Unknown
deriving DecidableEq

/-- Modelled from the spec: IKTarget::setType decodes the animation-variable
integer in declaration order, anything else becoming Unknown. -/
def TargetType.ofInt : Int → TargetType
  | 0 => .RotationAndPosition
  | 1 => .RotationOnly
  | 2 => .HmdHead
  | 3 => .HipsRelativeRotationAndPosition
  | 4 => .Spline
  | _ => .Unknown

/-- Per-frame resolved IK target (IKTarget, declarations not under src/). -/
structure IKTarget where
  type : TargetType
  rot : Quat
  trans : Vec3
  index : Int
  weight : ℚ
  flexCoefficients : List ℚ
  poleVectorEnabled : Bool
  poleVector : Vec3
  poleReferenceVector : Vec3
deriving DecidableEq

/-- Modelled from the spec: IKTarget::getFlexCoefficient returns the
per-chain-depth flex coefficient (out-of-range depths are unconstrained;
the exact out-of-range default is irrelevant to every claim below). -/
def IKTarget.getFlexCoefficient (t : IKTarget) (depth : ℕ) : ℚ :=
  t.flexCoefficients.getD depth 1

/-- IKTarget::getPose. -/
def IKTarget.pose (t : IKTarget) : Pose := ⟨t.rot, t.trans⟩

/-- Named binding from rig setup (IKTargetVar). -/
structure IKTargetVar where
  jointName : String
  positionVar : String
  rotationVar : String
  typeVar : String
  weightVar : String
  poleVectorEnabledVar : String
  poleReferenceVectorVar : String
  poleVectorVar : String
  weight : ℚ
  flexCoefficients : List ℚ
  jointIndex : Int
deriving DecidableEq

def emptyName : String := ""

instance : Inhabited IKTargetVar :=
  ⟨⟨emptyName, emptyName, emptyName, emptyName, emptyName, emptyName,
    emptyName, emptyName, 0, [], -1⟩⟩

/-- Read-only skeleton description supplied by the animation graph
(AnimSkeleton, not under src/): parent indices, name resolution and the
default (bind) poses, all modelled as plain functions. -/
structure Skeleton where
  numJoints : ℕ
  parents : ℕ → Int
  nameToJointIndex : String → Int
  relativeDefaultPose : ℕ → Pose
  absoluteDefaultPose : ℕ → Pose

/-- Modelled from the spec: AnimSkeleton::getAbsolutePose composes relative
poses up the parent chain (fuel-bounded; chains in a valid skeleton are
shorter than the joint count). -/
def getAbsolutePose (S : Skeleton) (poses : ℕ → Pose) : ℕ → ℕ → Pose
  | 0, i => poses i
  | fuel + 1, i =>
    let p := S.parents i
    if p < 0 then poses i
    else Pose.comp (getAbsolutePose S poses fuel p.toNat) (poses i)

/-- Absolute pose with the standard fuel (the joint count). -/
def absPoseOf (S : Skeleton) (poses : ℕ → Pose) (i : ℕ) : Pose :=
  getAbsolutePose S poses S.numJoints i

/-- External named-variable store (AnimVariantMap), modelled as lookup
functions with defaults; the rig-to-geometry conversions are internal to the
store and therefore folded into the lookups. -/
structure AnimVars where
  lookupInt : String → Int → Int
  lookupFloat : String → ℚ → ℚ
  lookupBool : String → Bool → Bool
  lookupQuat : String → Quat → Quat
  lookupVec : String → Vec3 → Vec3
  lookupVector : String → Vec3 → Vec3

/-- Rotation constraint attached to a joint (RotationConstraint hierarchy,
not under src/).  Modelled from the spec: `apply` returns the clamped
rotation together with the was-clamped flag; `isLowerSpine` marks the
lower-spine special case.  dynamicallyAdjustLimits only widens internal
limit state, which this abstract function representation absorbs. -/
structure Constraint where
  applyC : Quat → Quat × Bool
  isLowerSpine : Bool

/-- Result of constraint->apply on a candidate rotation, when a constraint is
present. -/
def applyConstraintRot (c : Option Constraint) (q : Quat) : Quat :=
  match c with
  | none => q
  | some cc => (cc.applyC q).1

/-- Whether constraint->apply reports the candidate as clamped. -/
def constraintClamped (c : Option Constraint) (q : Quat) : Bool :=
  match c with
  | none => false
  | some cc => (cc.applyC q).2

/-- Entry staged by the chain solvers before folding into the accumulators
(JointChainInfo). -/
structure JointChainInfo where
  relRot : Quat
  relTrans : Vec3
  weight : ℚ
  jointIndex : Int
  constrained : Bool
deriving DecidableEq

/-- Cached per-target spline data (SplineJointInfo). -/
structure SplineJointInfo where
  jointIndex : Int
  arcFraction : ℚ
  offsetPose : Pose
deriving DecidableEq

end HifiIK

/-! ## computeAbsolutePoses (AnimInverseKinematics.cpp lines 246-258) -/

namespace HifiIK

/-- One pass of AnimInverseKinematics::computeAbsolutePoses up to index n:
walk joints in increasing index order, a root joint (negative parent) copying
its relative pose, every other joint composing the parent entry of the output
array with its own relative pose.  The output array is modelled as a function
updated in place, exactly like the in-place writes of the source. -/
def computeAbsolutePosesAux (S : Skeleton) (rel : ℕ → Pose) :
    ℕ → (ℕ → Pose) → (ℕ → Pose)
  | 0, absPoses => absPoses
  | n + 1, absPoses =>
    let a := computeAbsolutePosesAux S rel n absPoses
    upd a n (if S.parents n < 0 then rel n
             else Pose.comp (a (S.parents n).toNat) (rel n))

/-- AnimInverseKinematics::computeAbsolutePoses over the n joints of the
relative-pose array. -/
def computeAbsolutePoses (S : Skeleton) (n : ℕ) (rel : ℕ → Pose)
    (absPoses : ℕ → Pose) : ℕ → Pose :=
  computeAbsolutePosesAux S rel n absPoses

/-! ## computeTargets (lines 280-350) -/

/-- Intermediate state of the computeTargets loop. -/
structure CTState where
  vars : List IKTargetVar
  targets : List IKTarget
  maxTargetIndex : Int
  hipsTargetIndex : Int
  removeUnfound : Bool

/-- Body of the per-targetVar loop of computeTargets: an unresolved var (index
-1) is resolved against the skeleton and cached (or flagged for removal on
failure); a resolved var reads the animation variables and emits an IKTarget
unless the decoded type is Unknown. -/
def computeTargetsStep (O : Oracle) (S : Skeleton) (vars : AnimVars)
    (under : ℕ → Pose) (hipsIndex : Int) (st : CTState) (tv : IKTargetVar) :
    CTState :=
  if tv.jointIndex = -1 then
    let j := S.nameToJointIndex tv.jointName
    if 0 ≤ j then
      { st with vars := st.vars ++ [{ tv with jointIndex := j }] }
    else
      { st with vars := st.vars ++ [tv], removeUnfound := true }
  else
    let ttype := TargetType.ofInt (vars.lookupInt tv.typeVar 0)
    if ttype ≠ TargetType.Unknown then
      let absPose := absPoseOf S under tv.jointIndex.toNat
      let rotation := vars.lookupQuat tv.rotationVar absPose.rot
      let translation := vars.lookupVec tv.positionVar absPose.trans
      let weight := vars.lookupFloat tv.weightVar tv.weight
      let poleVectorEnabled := vars.lookupBool tv.poleVectorEnabledVar false
      let poleVector := O.normalizeV (vars.lookupVector tv.poleVectorVar Vec3.unitZ)
      let poleReferenceVector :=
        O.normalizeV (vars.lookupVector tv.poleReferenceVectorVar Vec3.unitZ)
      let target : IKTarget :=
        { type := ttype, rot := rotation, trans := translation,
          index := tv.jointIndex, weight := weight,
          flexCoefficients := tv.flexCoefficients,
          poleVectorEnabled := poleVectorEnabled,
          poleVector := poleVector,
          poleReferenceVector := poleReferenceVector }
      let maxT := if st.maxTargetIndex < tv.jointIndex then tv.jointIndex
                  else st.maxTargetIndex
      let hipsT := if tv.jointIndex = hipsIndex then (st.targets.length : Int)
                   else st.hipsTargetIndex
      { st with
        vars := st.vars ++ [tv]
        targets := st.targets ++ [target]
        maxTargetIndex := maxT
        hipsTargetIndex := hipsT }
    else
      { st with vars := st.vars ++ [tv] }

/-- The removal loop of computeTargets (lines 334-349): compact the var list
by swapping the last element over each unresolved entry and popping, exactly
as the source does (fuel-bounded; each step either advances the cursor or
shrinks the list, so the supplied fuel always suffices). -/
def removeUnfoundLoop : ℕ → List IKTargetVar → ℕ → List IKTargetVar
  | 0, l, _ => l
  | fuel + 1, l, i =>
    if h : i < l.length then
      if (l.get ⟨i, h⟩).jointIndex = -1 then
        let l2 := if 1 < l.length
                  then (l.set i (l.getD (l.length - 1) default)).dropLast
                  else l.dropLast
        removeUnfoundLoop fuel l2 i
      else removeUnfoundLoop fuel l (i + 1)
    else l

/-- Result of AnimInverseKinematics::computeTargets: the (possibly compacted)
target-var vector together with the per-frame target list and the cached
maximum target index and hips-target index. -/
structure ComputeTargetsResult where
  targetVarVec : List IKTargetVar
  targets : List IKTarget
  maxTargetIndex : Int
  hipsTargetIndex : Int

/-- AnimInverseKinematics::computeTargets. -/
def computeTargets (O : Oracle) (S : Skeleton) (vars : AnimVars)
    (under : ℕ → Pose) (hipsIndex : Int) (varVec : List IKTargetVar) :
    ComputeTargetsResult :=
  let st0 : CTState := ⟨[], [], -1, -1, false⟩
  let st := varVec.foldl (computeTargetsStep O S vars under hipsIndex) st0
  let outVars := if st.removeUnfound
                 then removeUnfoundLoop (2 * st.vars.length + 1) st.vars 0
                 else st.vars
  ⟨outVars, st.targets, st.maxTargetIndex, st.hipsTargetIndex⟩

/-! ## solveTargetWithCCD (lines 442-747) -/

/-- Shared-library EPSILON used by the pole-vector block (NumericalConstants,
not under src/). -/
def sharedEPSILON : ℚ := mkRat 1 1000000

/-- MIN_AXIS_LENGTH and MIN_ADJUSTMENT_ANGLE of the CCD chain walk. -/
def MIN_AXIS_LENGTH : ℚ := mkRat 1 10000

/-- Solver-state indices read by the chain solvers. -/
structure SolverIdx where
  hipsIndex : Int
  headIndex : Int
  hipsTargetIndex : Int

/-- Tip transform data carried down the CCD chain walk. -/
structure CCDTip where
  tipPosition : Vec3
  tipOrientation : Quat
  tipParentOrientation : Quat

/-- The chain walk of solveTargetWithCCD (lines 509-623): pivot each ancestor
joint, stopping at the hips or at a joint whose parent is absent.  The
recursion is fuel-bounded by the remaining capacity of the 30-entry
jointChainInfos array of the source (the source asserts the walk never
exceeds it). -/
def ccdWalk (O : Oracle) (S : Skeleton) (idx : SolverIdx)
    (constraints : ℕ → Option Constraint) (target : IKTarget)
    (rel absPoses : ℕ → Pose) :
    ℕ → Int → Int → CCDTip → ℕ → List JointChainInfo
  | 0, _, _, _, _ => []
  | fuel + 1, pivotIndex, pivotsParentIndex, tip, chainDepth =>
    if pivotIndex ≠ idx.hipsIndex ∧ pivotsParentIndex ≠ -1 then
      let jointPosition := (absPoses pivotIndex.toNat).trans
      let leverArm := tip.tipPosition - jointPosition
      let deltaRotation :=
        if target.type = TargetType.RotationAndPosition ∨
           target.type = TargetType.HipsRelativeRotationAndPosition then
          let targetLine := target.trans - jointPosition
          let constraintP := constraints pivotIndex.toNat
          let lowerSpine := match constraintP with
                            | some c => c.isLowerSpine
                            | none => false
          let pr :=
            if idx.hipsTargetIndex < 0 ∧ lowerSpine = true ∧
               target.index ≠ idx.headIndex then
              let twistAxis := (absPoses pivotIndex.toNat).trans -
                               (absPoses pivotsParentIndex.toNat).trans
              let twistAxisLength := O.lengthV twistAxis
              if MIN_AXIS_LENGTH < twistAxisLength then
                let ta := Vec3.scale (qinv twistAxisLength) twistAxis
                (leverArm - Vec3.scale (Vec3.dot leverArm ta) ta,
                 targetLine - Vec3.scale (Vec3.dot targetLine ta) ta)
              else (Vec3.zero, Vec3.zero)
            else (leverArm, targetLine)
          let leverArm2 := pr.1
          let targetLine2 := pr.2
          let axis := Vec3.cross leverArm2 targetLine2
          let axisLength := O.lengthV axis
          if MIN_AXIS_LENGTH < axisLength then
            let axisN := Vec3.scale (qinv axisLength) axis
            let cosAngle := max (-1) (min 1 (qdiv (Vec3.dot leverArm2 targetLine2)
                              (O.lengthV leverArm2 * O.lengthV targetLine2)))
            let angle := O.acosQ cosAngle
            if MIN_AXIS_LENGTH < angle then
              let angle2 := angle * target.getFlexCoefficient chainDepth
              let dr := O.angleAxis angle2 axisN
              let tipRelativeRotation :=
                Quat.mul (Quat.inverse (Quat.mul dr tip.tipParentOrientation)) target.rot
              match constraints target.index.toNat with
              | some c =>
                let res := c.applyC tipRelativeRotation
                if res.2 then
                  let constrainedTipRotation :=
                    Quat.mul dr (Quat.mul tip.tipParentOrientation res.1)
                  let missingRotation :=
                    Quat.mul target.rot (Quat.inverse constrainedTipRotation)
                  let axis2 := O.normalizeV (Quat.rotate dr leverArm2)
                  let swingAndTwist := O.swingTwist missingRotation axis2
                  let twistPart := swingAndTwist.2
                  let ds := Quat.dotSign twistPart.w
                  Quat.mul (O.normalizeQ (Quat.lerp Quat.one (Quat.scale ds twistPart) (mkRat 1 10))) dr
                else dr
              | none => dr
            else Quat.one
          else Quat.one
        else if target.type = TargetType.HmdHead then
          let dr := Quat.mul target.rot (Quat.inverse tip.tipOrientation)
          let ds := Quat.dotSign dr.w
          O.normalizeQ (Quat.lerp Quat.one (Quat.scale ds dr) (mkRat 45 100))
        else Quat.one
      let newRot := O.normalizeQ (Quat.mul (Quat.inverse (absPoses pivotsParentIndex.toNat).rot)
                      (Quat.mul deltaRotation (absPoses pivotIndex.toNat).rot))
      let app :=
        match constraints pivotIndex.toNat with
        | some c =>
          let res := c.applyC newRot
          if res.2 then
            (res.1,
             Quat.mul (absPoses pivotsParentIndex.toNat).rot
               (Quat.mul res.1 (Quat.inverse (absPoses pivotIndex.toNat).rot)),
             true)
          else (res.1, deltaRotation, false)
        | none => (newRot, deltaRotation, false)
      let newTrans := (rel pivotIndex.toNat).trans
      let entry : JointChainInfo := ⟨app.1, newTrans, target.weight, pivotIndex, app.2.2⟩
      let tipPosition2 := jointPosition + Quat.rotate app.2.1 (tip.tipPosition - jointPosition)
      let tipOrientation2 := O.normalizeQ (Quat.mul app.2.1 tip.tipOrientation)
      let tipParentOrientation2 := O.normalizeQ (Quat.mul app.2.1 tip.tipParentOrientation)
      entry :: ccdWalk O S idx constraints target rel absPoses fuel
        pivotsParentIndex (S.parents pivotsParentIndex.toNat)
        ⟨tipPosition2, tipOrientation2, tipParentOrientation2⟩ (chainDepth + 1)
    else []

/-- Pole-vector correction block of solveTargetWithCCD (lines 625-737): when
enabled and the top/mid/base triple exists, replay the staged chain from the
hips, compute the pole rotation and rewrite the relative rotations of the
base and top entries in place.  Only the relRot fields of existing entries
change; no entry is added or removed.  (An absent chain position would be an
out-of-bounds write in the source; it is a no-op here.) -/
def poleVectorAdjust (O : Oracle) (S : Skeleton) (idx : SolverIdx)
    (target : IKTarget) (absPoses : ℕ → Pose)
    (chain : List JointChainInfo) : List JointChainInfo :=
  if target.poleVectorEnabled = true then
    let topJointIndex := target.index
    let midJointIndex := S.parents topJointIndex.toNat
    if midJointIndex ≠ -1 then
      let baseJointIndex := S.parents midJointIndex.toNat
      if baseJointIndex ≠ -1 then
        let baseParentJointIndex := S.parents baseJointIndex.toNat
        let start := absPoses idx.hipsIndex.toNat
        let replay := chain.reverse.foldl
          (fun (acc : Pose × Pose × Pose × Pose × Pose) info =>
            let accumP := Pose.comp acc.1 ⟨info.relRot, info.relTrans⟩
            let topP := if info.jointIndex = topJointIndex then accumP else acc.2.1
            let midP := if info.jointIndex = midJointIndex then accumP else acc.2.2.1
            let baseP := if info.jointIndex = baseJointIndex then accumP else acc.2.2.2.1
            let basePP := if info.jointIndex = baseParentJointIndex then accumP else acc.2.2.2.2
            (accumP, topP, midP, baseP, basePP))
          (start, Pose.id, Pose.id, Pose.id, start)
        let topPose := replay.2.1
        let midPose := replay.2.2.1
        let basePose := replay.2.2.2.1
        let baseParentPose := replay.2.2.2.2
        let d := basePose.trans - topPose.trans
        let dLen := O.lengthV d
        let poleRot :=
          if sharedEPSILON < dLen then
            let dUnit := Vec3.scale (qinv dLen) d
            let e := Pose.xformVector midPose target.poleReferenceVector
            let eProj := e - Vec3.scale (Vec3.dot e dUnit) dUnit
            let eProjLen := O.lengthV eProj
            let ep2 :=
              if eProjLen < mkRat 1 2 then
                let midPoint := topPose.trans + Vec3.scale (mkRat 1 2) d
                let e2 := midPose.trans - midPoint
                let ep := e2 - Vec3.scale (Vec3.dot e2 dUnit) dUnit
                (ep, O.lengthV ep)
              else (eProj, eProjLen)
            let p := target.poleVector
            let pProj := p - Vec3.scale (Vec3.dot p dUnit) dUnit
            let pProjLen := O.lengthV pProj
            if sharedEPSILON < ep2.2 ∧ sharedEPSILON < pProjLen then
              let magnitude := O.easeOutExpo pProjLen
              let dotEP := max 0 (min 1 (Vec3.dot (Vec3.scale (qinv ep2.2) ep2.1)
                              (Vec3.scale (qinv pProjLen) pProj)))
              let theta := O.acosQ dotEP
              let crossEP := Vec3.cross ep2.1 pProj
              if mkRat 1745 1000000 < theta then
                let axis := if Vec3.dot crossEP dUnit < 0 then Vec3.neg dUnit else dUnit
                O.angleAxis (magnitude * theta) axis
              else Quat.one
            else Quat.one
          else Quat.one
        let topChainIndex := chain.findIdx (fun e => e.jointIndex = topJointIndex)
        let baseChainIndex := chain.findIdx (fun e => e.jointIndex = baseJointIndex)
        let newBaseRelRot := Quat.mul (Quat.inverse baseParentPose.rot) (Quat.mul poleRot basePose.rot)
        let chain2 := chain.modify (fun e => { e with relRot := newBaseRelRot }) baseChainIndex
        let newTopRelRot := Quat.mul (Quat.inverse midPose.rot) (Quat.mul (Quat.inverse poleRot) topPose.rot)
        chain2.modify (fun e => { e with relRot := newTopRelRot }) topChainIndex
      else chain
    else chain
  else chain

/-- Tip-alignment block of solveTargetWithCCD (lines 473-501): for the three
orientation-bearing types, rotate the tip toward the target orientation
scaled by the depth-0 flex coefficient, clamp by the tip's constraint, and
stage the entry; returns the staged entries together with the (possibly
re-clamped) cached tip orientation. -/
def ccdTipStage (constraints : ℕ → Option Constraint) (target : IKTarget)
    (rel : ℕ → Pose) (tipOrientation0 tipParentOrientation0 : Quat) :
    List JointChainInfo × Quat :=
  if target.type = TargetType.HmdHead ∨
     target.type = TargetType.RotationAndPosition ∨
     target.type = TargetType.HipsRelativeRotationAndPosition then
    let deltaRot0 := Quat.mul target.rot (Quat.inverse tipOrientation0)
    let deltaRot := Quat.scale (target.getFlexCoefficient 0) deltaRot0
    -- the source calls glm::normalize(deltaRot) here and discards the result
    let tipRelativeRotation :=
      Quat.mul (Quat.inverse tipParentOrientation0) (Quat.mul deltaRot tipOrientation0)
    match constraints target.index.toNat with
    | some c =>
      let res := c.applyC tipRelativeRotation
      let tipO := if res.2 then Quat.mul tipParentOrientation0 res.1 else tipOrientation0
      ([(⟨res.1, (rel target.index.toNat).trans, target.weight, target.index, res.2⟩ : JointChainInfo)], tipO)
    | none =>
      ([(⟨tipRelativeRotation, (rel target.index.toNat).trans, target.weight, target.index, false⟩ : JointChainInfo)], tipOrientation0)
  else ([], tipOrientation0)

/-- Staged chain entries produced by one solveTargetWithCCD call: the early
returns for RotationOnly targets and for degenerate topology (tip parent
absent or equal to the hips, or grandparent absent) produce no entries; then
the tip-alignment block (for the three orientation-bearing types), the chain
walk, and the pole-vector correction. -/
def ccdJointChainInfos (O : Oracle) (S : Skeleton) (idx : SolverIdx)
    (constraints : ℕ → Option Constraint) (target : IKTarget)
    (rel absPoses : ℕ → Pose) : List JointChainInfo :=
  if target.type = TargetType.RotationOnly then []
  else
    let tipIndex := target.index
    let pivotIndex := S.parents tipIndex.toNat
    if pivotIndex = -1 ∨ pivotIndex = idx.hipsIndex then []
    else
      let pivotsParentIndex := S.parents pivotIndex.toNat
      if pivotsParentIndex = -1 then []
      else
        let tipOrientation0 := (absPoses tipIndex.toNat).rot
        let tipParentOrientation0 := (absPoses pivotIndex.toNat).rot
        let tipStage := ccdTipStage constraints target rel tipOrientation0 tipParentOrientation0
        let tipPosition0 := (absPoses tipIndex.toNat).trans
        let walkEntries := ccdWalk O S idx constraints target rel absPoses 29
          pivotIndex pivotsParentIndex ⟨tipPosition0, tipStage.2, tipParentOrientation0⟩ 1
        poleVectorAdjust O S idx target absPoses (tipStage.1 ++ walkEntries)

/-- Fold staged chain entries into the per-joint accumulators (lines 739-742
and 921-924). -/
def addChainToAccumulators (infos : List JointChainInfo)
    (rotAcc : ℕ → Accum Quat) (transAcc : ℕ → Accum Vec3) :
    (ℕ → Accum Quat) × (ℕ → Accum Vec3) :=
  infos.foldl
    (fun acc info =>
      (upd acc.1 info.jointIndex.toNat
         ((acc.1 info.jointIndex.toNat).add info.relRot info.weight),
       upd acc.2 info.jointIndex.toNat
         ((acc.2 info.jointIndex.toNat).add info.relTrans info.weight)))
    (rotAcc, transAcc)

/-- AnimInverseKinematics::solveTargetWithCCD, as a transform of the
accumulator state. -/
def solveTargetWithCCD (O : Oracle) (S : Skeleton) (idx : SolverIdx)
    (constraints : ℕ → Option Constraint) (target : IKTarget)
    (rel absPoses : ℕ → Pose) (rotAcc : ℕ → Accum Quat)
    (transAcc : ℕ → Accum Vec3) : (ℕ → Accum Quat) × (ℕ → Accum Vec3) :=
  addChainToAccumulators (ccdJointChainInfos O S idx constraints target rel absPoses)
    rotAcc transAcc

end HifiIK

/-! ## Spline chain solver (lines 749-929) -/

namespace HifiIK

/-- Modelled from the spec: cubic Hermite curve data
(CubicHermiteSplineFunctorWithArcLength is not under src/).  Evaluation and
derivative are the standard Hermite polynomials; arc length and its inverse
are numerical routines supplied by the oracle. -/
structure Spline where
  p0 : Vec3
  m0 : Vec3
  p1 : Vec3
  m1 : Vec3
deriving DecidableEq

namespace Spline

def eval (s : Spline) (t : ℚ) : Vec3 :=
  Vec3.scale (2*t^3 - 3*t^2 + 1) s.p0 + Vec3.scale (t^3 - 2*t^2 + t) s.m0 +
  Vec3.scale (-2*t^3 + 3*t^2) s.p1 + Vec3.scale (t^3 - t^2) s.m1

def deriv (s : Spline) (t : ℚ) : Vec3 :=
  Vec3.scale (6*t^2 - 6*t) s.p0 + Vec3.scale (3*t^2 - 4*t + 1) s.m0 +
  Vec3.scale (-6*t^2 + 6*t) s.p1 + Vec3.scale (3*t^2 - 2*t) s.m1

def arcLength (O : Oracle) (s : Spline) (t : ℚ) : ℚ :=
  O.arcLen s.p0 s.m0 s.p1 s.m1 t

def arcLengthInverse (O : Oracle) (s : Spline) (u : ℚ) : ℚ :=
  O.arcLenInv s.p0 s.m0 s.p1 s.m1 u

end Spline

/-- computeSplineFromTipAndBase (lines 749-757). -/
def computeSplineFromTipAndBase (O : Oracle) (tipPose basePose : Pose)
    (baseGain tipGain : ℚ) : Spline :=
  let linearDistance := O.lengthV (basePose.trans - tipPose.trans)
  ⟨basePose.trans,
   Vec3.scale (baseGain * linearDistance) (Quat.rotate basePose.rot Vec3.unitY),
   tipPose.trans,
   Vec3.scale (tipGain * linearDistance) (Quat.rotate tipPose.rot Vec3.unitY)⟩

/-- Joint walk of computeSplineJointInfosForIKTarget (lines 784-808), from the
target joint up to (excluding) the hips' parent; fuel-bounded, chains in a
valid skeleton being shorter than the joint count. -/
def splineJointInfoWalk (O : Oracle) (S : Skeleton) (spline : Spline)
    (totalArcLength : ℚ) (basePose : Pose) (baseToTipNormal : Vec3)
    (baseToTipLength : ℚ) : ℕ → Int → Int → List SplineJointInfo
  | 0, _, _ => []
  | fuel + 1, index, endIndex =>
    if index ≠ endIndex then
      let defaultPose := S.absoluteDefaultPose index.toNat
      let ratioA := qdiv (Vec3.dot (defaultPose.trans - basePose.trans) baseToTipNormal) baseToTipLength
      let t := Spline.arcLengthInverse O spline (ratioA * totalArcLength)
      let y := O.normalizeV (Spline.deriv spline t)
      let x := Quat.rotate defaultPose.rot Vec3.unitX
      let uv := O.basisFromYX y x
      let rot := O.normalizeQ (O.quatCast uv.1 uv.2 (Vec3.cross uv.1 uv.2))
      let pose : Pose := ⟨rot, Spline.eval spline t⟩
      let offsetPose := Pose.comp (Pose.inv pose) defaultPose
      (⟨index, ratioA, offsetPose⟩ : SplineJointInfo) ::
        splineJointInfoWalk O S spline totalArcLength basePose baseToTipNormal
          baseToTipLength fuel (S.parents index.toNat) endIndex
    else []

/-- computeSplineJointInfosForIKTarget (lines 760-811): per-target cached
spline joint data computed from the default poses. -/
def computeSplineJointInfosForIKTarget (O : Oracle) (S : Skeleton)
    (idx : SolverIdx) (target : IKTarget) : List SplineJointInfo :=
  let tipPose := S.absoluteDefaultPose target.index.toNat
  let basePose := S.absoluteDefaultPose idx.hipsIndex.toNat
  let spline := if target.index = idx.headIndex
                then computeSplineFromTipAndBase O tipPose basePose (mkRat 1 2) 1
                else computeSplineFromTipAndBase O tipPose basePose 1 1
  let totalArcLength := Spline.arcLength O spline 1
  let baseToTip := tipPose.trans - basePose.trans
  let baseToTipLength := O.lengthV baseToTip
  let baseToTipNormal := Vec3.scale (qinv baseToTipLength) baseToTip
  splineJointInfoWalk O S spline totalArcLength basePose baseToTipNormal
    baseToTipLength (S.numJoints + 1) target.index (S.parents idx.hipsIndex.toNat)

/-- Association-list model of the std::map spline-info cache. -/
def lookupSplineMap (m : List (Int × List SplineJointInfo)) (k : Int) :
    Option (List SplineJointInfo) :=
  match m.find? (fun p => p.1 = k) with
  | some p => some p.2
  | none => none

/-- std::map insertion used by computeSplineJointInfosForIKTarget. -/
def insertSplineMap (m : List (Int × List SplineJointInfo)) (k : Int)
    (v : List SplineJointInfo) : List (Int × List SplineJointInfo) :=
  if (m.find? (fun p => p.1 = k)).isSome
  then m.map (fun p => if p.1 = k then (k, v) else p)
  else m ++ [(k, v)]

/-- findOrCreateSplineJointInfo (lines 813-827). -/
def findOrCreateSplineJointInfo (O : Oracle) (S : Skeleton) (idx : SolverIdx)
    (target : IKTarget) (m : List (Int × List SplineJointInfo)) :
    List SplineJointInfo × List (Int × List SplineJointInfo) :=
  match lookupSplineMap m target.index with
  | some v => (v, m)
  | none =>
    let v := computeSplineJointInfosForIKTarget O S idx target
    (v, insertSplineMap m target.index v)

/-- Modelled from the spec: AnimUtil blend (not under src/) — blend toward
the desired pose: lerp of translation, shortest-arc normalised lerp of
rotation. -/
def blendPoses (O : Oracle) (a b : Pose) (alpha : ℚ) : Pose :=
  let q2 := if Quat.dot4 a.rot b.rot < 0 then Quat.neg b.rot else b.rot
  ⟨O.normalizeQ (Quat.lerp a.rot q2 alpha), Vec3.lerp a.trans b.trans alpha⟩

/-- Translation clamp of solveTargetWithSpline (lines 893-913): every joint
except the hips has its parent-relative translation clamped to within ±15% of
the default-pose bone length, translations of length at most the local
epsilon being zeroed instead. -/
def clampSplineTranslation (O : Oracle) (isHips : Bool) (defaultTrans tr : Vec3) :
    Vec3 × Bool :=
  if isHips = false then
    let length := O.lengthV tr
    if mkRat 1 10000 < length then
      let defaultLength := O.lengthV defaultTrans
      let maxLength := defaultLength * (1 + mkRat 15 100)
      let minLength := defaultLength * (1 - mkRat 15 100)
      if maxLength < length then
        (Vec3.scale maxLength (Vec3.scale (qinv length) tr), true)
      else if length < minLength then
        (Vec3.scale minLength (Vec3.scale (qinv length) tr), true)
      else (tr, false)
    else (Vec3.zero, false)
  else (tr, false)

/-- Per-frame chain entries of solveTargetWithSpline (lines 836-919): rebuild
the spline from the live base and tip poses, walk the cached joint infos from
the base end toward the tip, and stage one entry per joint. -/
def splineChainEntries (O : Oracle) (S : Skeleton) (idx : SolverIdx)
    (target : IKTarget) (absPoses : ℕ → Pose)
    (infos : List SplineJointInfo) : List JointChainInfo :=
  let baseIndex := idx.hipsIndex
  let tipPose0 : Pose := ⟨target.rot, target.trans⟩
  let basePose := absPoses baseIndex.toNat
  let spline := if target.index = idx.headIndex
                then computeSplineFromTipAndBase O tipPose0 basePose (mkRat 1 2) 1
                else computeSplineFromTipAndBase O tipPose0 basePose 1 1
  let totalArcLength := Spline.arcLength O spline 1
  let halfRot := O.normalizeQ (Quat.lerp basePose.rot tipPose0.rot (mkRat 1 2))
  let tipPose : Pose :=
    if Vec3.dot (Quat.rotate halfRot Vec3.unitZ) (Quat.rotate basePose.rot Vec3.unitZ) < 0
    then ⟨Quat.neg tipPose0.rot, tipPose0.trans⟩ else tipPose0
  let baseParentIndex := S.parents baseIndex.toNat
  let parentAbsPose0 := if 0 ≤ baseParentIndex then absPoses baseParentIndex.toNat else Pose.id
  let step := fun (acc : Pose × List JointChainInfo) (ie : ℕ × SplineJointInfo) =>
    let parentAbsPose := acc.1
    let i := ie.1
    let sji := ie.2
    let t := Spline.arcLengthInverse O spline (sji.arcFraction * totalArcLength)
    let trans := Spline.eval spline t
    let rotT := if target.index = idx.headIndex then t * t else t
    let twistRot := O.normalizeQ (Quat.lerp basePose.rot tipPose.rot rotT)
    let y := O.normalizeV (Spline.deriv spline t)
    let x := Quat.rotate twistRot Vec3.unitX
    let uv := O.basisFromYX y x
    let rot := O.normalizeQ (O.quatCast uv.1 uv.2 (Vec3.cross uv.1 uv.2))
    let desiredAbsPose := Pose.comp ⟨rot, trans⟩ sji.offsetPose
    let flexedAbsPose := blendPoses O (absPoses sji.jointIndex.toNat) desiredAbsPose
                           (target.getFlexCoefficient i)
    let relPose := Pose.comp (Pose.inv parentAbsPose) flexedAbsPose
    let clamped := clampSplineTranslation O (sji.jointIndex = idx.hipsIndex)
                     (S.relativeDefaultPose sji.jointIndex.toNat).trans relPose.trans
    let entry : JointChainInfo := ⟨relPose.rot, clamped.1, target.weight, sji.jointIndex, clamped.2⟩
    (flexedAbsPose, entry :: acc.2)
  ((infos.enum.reverse).foldl step (parentAbsPose0, [])).2

/-- AnimInverseKinematics::solveTargetWithSpline, as a transform of the
accumulator state and the spline-info cache. -/
def solveTargetWithSpline (O : Oracle) (S : Skeleton) (idx : SolverIdx)
    (target : IKTarget) (absPoses : ℕ → Pose) (rotAcc : ℕ → Accum Quat)
    (transAcc : ℕ → Accum Vec3) (m : List (Int × List SplineJointInfo)) :
    (ℕ → Accum Quat) × (ℕ → Accum Vec3) × List (Int × List SplineJointInfo) :=
  let fo := findOrCreateSplineJointInfo O S idx target m
  let entries := splineChainEntries O S idx target absPoses fo.1
  let accs := addChainToAccumulators entries rotAcc transAcc
  (accs.1, accs.2, fo.2)

/-! ## solve (lines 352-440) -/

def MAX_IK_LOOPS : ℕ := 16

def MAX_ERROR_TOLERANCE : ℚ := mkRat 1 10

/-- FLT_MAX, the initial value of maxError in solve. -/
def FLT_MAX_Q : ℚ := 340282346638528859811704183484516925440

/-- State threaded through the relaxation loop of solve. -/
structure LoopState where
  rel : ℕ → Pose
  absPoses : ℕ → Pose
  rotAcc : ℕ → Accum Quat
  transAcc : ℕ → Accum Vec3
  splineMap : List (Int × List SplineJointInfo)
  maxError : ℚ
  numLoops : ℕ

/-- Solve every target of one iteration (lines 375-382): Spline targets go to
the spline solver, everything else to CCD. -/
def solveAllTargets (O : Oracle) (S : Skeleton) (idx : SolverIdx)
    (constraints : ℕ → Option Constraint) (targets : List IKTarget)
    (rel absPoses : ℕ → Pose)
    (acc : (ℕ → Accum Quat) × (ℕ → Accum Vec3) × List (Int × List SplineJointInfo)) :
    (ℕ → Accum Quat) × (ℕ → Accum Vec3) × List (Int × List SplineJointInfo) :=
  targets.foldl
    (fun acc target =>
      if target.type = TargetType.Spline then
        solveTargetWithSpline O S idx target absPoses acc.1 acc.2.1 acc.2.2
      else
        let r := solveTargetWithCCD O S idx constraints target rel absPoses acc.1 acc.2.1
        (r.1, r.2, acc.2.2))
    acc

/-- Harvest the accumulated rotations and translations into the relative
poses and clear the accumulators (lines 384-394). -/
def harvestAccumulators (O : Oracle) (n : ℕ) (rel : ℕ → Pose)
    (rotAcc : ℕ → Accum Quat) (transAcc : ℕ → Accum Vec3) :
    (ℕ → Pose) × (ℕ → Accum Quat) × (ℕ → Accum Vec3) :=
  (List.range n).foldl
    (fun st i =>
      let st1 := if 0 < (st.2.1 i).size then
          (upd st.1 i ⟨rotAverage O (st.2.1 i), (st.1 i).trans⟩,
           upd st.2.1 i ((st.2.1 i).clear), st.2.2)
        else st
      if 0 < (st1.2.2 i).size then
        (upd st1.1 i ⟨(st1.1 i).rot, transAverage (st1.2.2 i)⟩,
         st1.2.1, upd st1.2.2 i ((st1.2.2 i).clear))
      else st1)
    (rel, rotAcc, transAcc)

/-- In-loop absolute-pose refresh (lines 396-402): only joints with a parent
are updated. -/
def updateAbsolutePosesLoop (S : Skeleton) (n : ℕ) (rel : ℕ → Pose)
    (absPoses : ℕ → Pose) : ℕ → Pose :=
  (List.range n).foldl
    (fun a i =>
      if S.parents i ≠ -1
      then upd a i (Pose.comp (a (S.parents i).toNat) (rel i))
      else a)
    absPoses

/-- Worst positional error over the position-bearing target types
(lines 404-414). -/
def computeMaxError (O : Oracle) (targets : List IKTarget)
    (absPoses : ℕ → Pose) : ℚ :=
  targets.foldl
    (fun maxError t =>
      if t.type = TargetType.RotationAndPosition ∨ t.type = TargetType.HmdHead ∨
         t.type = TargetType.HipsRelativeRotationAndPosition then
        let error := O.lengthV ((absPoses t.index.toNat).trans - t.trans)
        if maxError < error then error else maxError
      else maxError)
    0

/-- One iteration of the relaxation loop (lines 370-415): bump numLoops,
solve all targets, harvest the accumulators, refresh the absolute poses and
recompute the worst positional error. -/
def solveIteration (O : Oracle) (S : Skeleton) (idx : SolverIdx)
    (constraints : ℕ → Option Constraint) (targets : List IKTarget) (n : ℕ)
    (s : LoopState) : LoopState :=
  let solved := solveAllTargets O S idx constraints targets s.rel s.absPoses
                  (s.rotAcc, s.transAcc, s.splineMap)
  let h := harvestAccumulators O n s.rel solved.1 solved.2.1
  let abs2 := updateAbsolutePosesLoop S n h.1 s.absPoses
  let err := computeMaxError O targets abs2
  ⟨h.1, abs2, h.2.1, h.2.2, solved.2.2, err, s.numLoops + 1⟩

/-- The while loop of solve: run the step while the error exceeds the
tolerance and fewer than MAX_IK_LOOPS iterations have executed.  The fuel
mirrors the loop bound; solve supplies fuel MAX_IK_LOOPS, which the
numLoops guard makes sufficient. -/
def solveLoopGo (step : LoopState → LoopState) : ℕ → LoopState → LoopState
  | 0, s => s
  | fuel + 1, s =>
    if MAX_ERROR_TOLERANCE < s.maxError ∧ s.numLoops < MAX_IK_LOOPS
    then solveLoopGo step fuel (step s)
    else s

/-- Loop entry state of solve (lines 352-369): freshly computed absolute
poses, every accumulator cleared-and-cleaned, maxError = FLT_MAX and zero
iterations executed. -/
def solveInitState (S : Skeleton) (n : ℕ) (rel : ℕ → Pose)
    (rotAcc : ℕ → Accum Quat) (transAcc : ℕ → Accum Vec3)
    (splineMap : List (Int × List SplineJointInfo)) : LoopState :=
  let absPoses := computeAbsolutePoses S n rel (fun _ => Pose.id)
  let ra := fun i => if i < n then Accum.clearAndClean (rotAcc i) else rotAcc i
  let ta := fun i => if i < n then Accum.clearAndClean (transAcc i) else transAcc i
  ⟨rel, absPoses, ra, ta, splineMap, FLT_MAX_Q, 0⟩

/-- The relaxation loop of solve (lines 352-416): compute the absolute poses,
clear-and-clean every accumulator, then iterate. -/
def solveLoopResult (O : Oracle) (S : Skeleton) (idx : SolverIdx)
    (constraints : ℕ → Option Constraint) (targets : List IKTarget) (n : ℕ)
    (rel : ℕ → Pose) (rotAcc : ℕ → Accum Quat) (transAcc : ℕ → Accum Vec3)
    (splineMap : List (Int × List SplineJointInfo)) : LoopState :=
  solveLoopGo (solveIteration O S idx constraints targets n) MAX_IK_LOOPS
    (solveInitState S n rel rotAcc transAcc splineMap)

/-- Final pass of solve (lines 418-439): each RotationOnly target whose tip
has a parent and whose rotation accumulator is not dirty gets its relative
rotation forced to inverse(parent absolute rotation) * target rotation,
clamped by its own constraint; the local absolute rotation is set to the
target rotation. -/
def finalRotationPass (S : Skeleton) (constraints : ℕ → Option Constraint)
    (rotAcc : ℕ → Accum Quat) (targets : List IKTarget)
    (rel absPoses : ℕ → Pose) : (ℕ → Pose) × (ℕ → Pose) :=
  targets.foldl
    (fun (st : (ℕ → Pose) × (ℕ → Pose)) target =>
      let tipIndex := target.index
      let parentIndex := S.parents tipIndex.toNat
      if parentIndex ≠ -1 ∧ (rotAcc tipIndex.toNat).isDirty = false ∧
         target.type = TargetType.RotationOnly then
        let targetRotation := target.rot
        let newRelativeRotation0 :=
          Quat.mul (Quat.inverse (st.2 parentIndex.toNat).rot) targetRotation
        let newRelativeRotation :=
          applyConstraintRot (constraints tipIndex.toNat) newRelativeRotation0
        (upd st.1 tipIndex.toNat ⟨newRelativeRotation, (st.1 tipIndex.toNat).trans⟩,
         upd st.2 tipIndex.toNat ⟨targetRotation, (st.2 tipIndex.toNat).trans⟩)
      else st)
    (rel, absPoses)

/-- Output of AnimInverseKinematics::solve. -/
structure SolveOut where
  rel : ℕ → Pose
  rotAcc : ℕ → Accum Quat
  transAcc : ℕ → Accum Vec3
  splineMap : List (Int × List SplineJointInfo)
  maxErrorOnLastSolve : ℚ

/-- AnimInverseKinematics::solve. -/
def solve (O : Oracle) (S : Skeleton) (idx : SolverIdx)
    (constraints : ℕ → Option Constraint) (targets : List IKTarget) (n : ℕ)
    (rel : ℕ → Pose) (rotAcc : ℕ → Accum Quat) (transAcc : ℕ → Accum Vec3)
    (splineMap : List (Int × List SplineJointInfo)) : SolveOut :=
  let L := solveLoopResult O S idx constraints targets n rel rotAcc transAcc splineMap
  let fin := finalRotationPass S constraints L.rotAcc targets L.rel L.absPoses
  ⟨fin.1, L.rotAcc, L.transAcc, L.splineMap, L.maxError⟩

end HifiIK

/-! ## Hips-offset heuristic, pose relaxation and overlay (lines 940-1139,
1791-1880) -/

namespace HifiIK

/-- Target-discrepancy accumulation loop of computeHipsOffset
(lines 1086-1121), with the HmdHead break modelled by returning immediately.
Returns (newHipsOffset, hipsOffset), the second component reflecting the
in-loop mutation of the stored offset by the HmdHead branch. -/
def hipsOffsetLoop (S : Skeleton) (headIndex : Int) (under rel : ℕ → Pose) :
    List IKTarget → Vec3 → Vec3 → Vec3 × Vec3
  | [], acc, off => (acc, off)
  | t :: rest, acc, off =>
    let targetIndex := t.index
    if targetIndex = headIndex ∧ headIndex ≠ -1 then
      if t.type = TargetType.RotationOnly then
        let underT := (absPoseOf S under headIndex.toNat).trans
        let actual := (absPoseOf S rel headIndex.toNat).trans
        hipsOffsetLoop S headIndex under rel rest
          (acc + Vec3.scale (mkRat 65 100) (actual - underT)) off
      else if t.type = TargetType.HmdHead then
        let actual := (absPoseOf S rel headIndex.toNat).trans
        let off2 := off + (t.trans - actual)
        (off2, off2)
      else if t.type = TargetType.RotationAndPosition then
        let actualPosition := (absPoseOf S rel targetIndex.toNat).trans
        let acc1 := acc + (t.trans - actualPosition)
        let acc2 := Vec3.subScalar (Vec3.scale (mkRat 95 100) acc1) 1
        hipsOffsetLoop S headIndex under rel rest acc2 off
      else
        hipsOffsetLoop S headIndex under rel rest acc off
    else if t.type = TargetType.RotationAndPosition then
      let actualPosition := (absPoseOf S rel targetIndex.toNat).trans
      hipsOffsetLoop S headIndex under rel rest (acc + (t.trans - actualPosition)) off
    else
      hipsOffsetLoop S headIndex under rel rest acc off

/-- AnimInverseKinematics::computeHipsOffset (lines 1082-1133): accumulate the
desired offset, low-pass filter toward it with time constant 0.1 s, clamp to
the maximum offset length. -/
def computeHipsOffset (O : Oracle) (S : Skeleton) (headIndex : Int)
    (maxHipsOffsetLength : ℚ) (targets : List IKTarget) (under rel : ℕ → Pose)
    (dt : ℚ) (hipsOffset : Vec3) : Vec3 :=
  let r := hipsOffsetLoop S headIndex under rel targets Vec3.zero hipsOffset
  let newHipsOffset := r.1
  let off := r.2
  let tau := if dt < mkRat 1 10 then qdiv dt (mkRat 1 10) else 1
  let off2 := off + Vec3.scale tau (newHipsOffset - off)
  let hipsOffsetLength := O.lengthV off2
  if maxHipsOffsetLength < hipsOffsetLength
  then Vec3.scale (qdiv maxHipsOffsetLength hipsOffsetLength) off2
  else off2

/-- AnimInverseKinematics::blendToPoses (lines 1794-1808): joints whose
rotation accumulator is dirty blend toward the target poses, every other
joint snaps to the under-pose rotation; translations always come from the
under-poses. -/
def blendToPoses (O : Oracle) (n : ℕ) (rotAcc : ℕ → Accum Quat)
    (rel targetPoses underPoses : ℕ → Pose) (blendFactor : ℚ) : ℕ → Pose :=
  fun i =>
    if i < n then
      let ds := Quat.dotSign (Quat.dot4 (rel i).rot (targetPoses i).rot)
      let rot := if (rotAcc i).isDirty = true
                 then O.normalizeQ (Quat.lerp (rel i).rot
                        (Quat.scale ds (targetPoses i).rot) blendFactor)
                 else (underPoses i).rot
      ⟨rot, (underPoses i).trans⟩
    else rel i

/-- Modelled from the spec: the SolutionSource enumeration (declared in the
header, which is not under src/), in the order of the switch of
initRelativePosesFromSolutionSource. -/
inductive SolutionSource where
  | RelaxToUnderPoses
  | RelaxToLimitCenterPoses
  | PreviousSolution
  | UnderPoses
  | LimitCenterPoses
deriving DecidableEq

def SolutionSource.toInt : SolutionSource → Int
  | .RelaxToUnderPoses => 0
  | .RelaxToLimitCenterPoses => 1
  | .PreviousSolution => 2
  | .UnderPoses => 3
  | .LimitCenterPoses => 4

/-- Decode an animation-variable integer; the switch default sends anything
out of range to RelaxToUnderPoses. -/
def SolutionSource.ofInt : Int → SolutionSource
  | 1 => .RelaxToLimitCenterPoses
  | 2 => .PreviousSolution
  | 3 => .UnderPoses
  | 4 => .LimitCenterPoses
  | _ => .RelaxToUnderPoses

/-- AnimInverseKinematics::initRelativePosesFromSolutionSource
(lines 1854-1880). -/
def initRelativePosesFromSolutionSource (O : Oracle) (n : ℕ)
    (rotAcc : ℕ → Accum Quat) (hipsIndex : Int) (limitCenterPoses : ℕ → Pose)
    (ss : SolutionSource) (rel underPoses : ℕ → Pose) : ℕ → Pose :=
  match ss with
  | .RelaxToUnderPoses => blendToPoses O n rotAcc rel underPoses underPoses (mkRat 1 16)
  | .RelaxToLimitCenterPoses =>
    let r := blendToPoses O n rotAcc rel limitCenterPoses underPoses (mkRat 1 16)
    if 0 ≤ hipsIndex ∧ hipsIndex.toNat < n
    then upd r hipsIndex.toNat (limitCenterPoses hipsIndex.toNat)
    else r
  | .PreviousSolution => rel
  | .UnderPoses => underPoses
  | .LimitCenterPoses => blendToPoses O n rotAcc rel underPoses limitCenterPoses 1

def nameLeftHand : String := "LeftHand"
def nameRightHand : String := "RightHand"
def nameLeftArm : String := "LeftArm"
def nameRightArm : String := "RightArm"
def nameLeftFoot : String := "LeftFoot"
def nameRightFoot : String := "RightFoot"
def nameLeftUpLeg : String := "LeftUpLeg"
def nameRightUpLeg : String := "RightUpLeg"

/-- AnimInverseKinematics::preconditionRelativePosesToAvoidLimbLock
(lines 1810-1852): pre-rotate the base joint of each targeted two-bone limb
so the lever arm covers the target line. -/
def preconditionRelativePosesToAvoidLimbLock (O : Oracle) (S : Skeleton)
    (targets : List IKTarget) (rel : ℕ → Pose) : ℕ → Pose :=
  let limbs : List (Int × Int) :=
    [(S.nameToJointIndex nameLeftHand, S.nameToJointIndex nameLeftArm),
     (S.nameToJointIndex nameRightHand, S.nameToJointIndex nameRightArm),
     (S.nameToJointIndex nameLeftFoot, S.nameToJointIndex nameLeftUpLeg),
     (S.nameToJointIndex nameRightFoot, S.nameToJointIndex nameRightUpLeg)]
  targets.foldl
    (fun rel target =>
      if target.index ≠ -1 then
        limbs.foldl
          (fun rel limb =>
            if limb.1 = target.index then
              let baseIndex := limb.2
              let tipPose := absPoseOf S rel limb.1.toNat
              let basePose := absPoseOf S rel baseIndex.toNat
              let baseParentPose := absPoseOf S rel (S.parents baseIndex.toNat).toNat
              let targetLine := target.trans - basePose.trans
              let leverArm := tipPose.trans - basePose.trans
              let axis := Vec3.cross leverArm targetLine
              let axisLength := O.lengthV axis
              if MIN_AXIS_LENGTH < axisLength then
                let axisN := Vec3.scale (qinv axisLength) axis
                let cosAngle := max (-1) (min 1 (qdiv (Vec3.dot leverArm targetLine)
                                  (O.lengthV leverArm * O.lengthV targetLine)))
                let angle := O.acosQ cosAngle
                let newBaseRotation := Quat.mul (O.angleAxis angle axisN) basePose.rot
                upd rel baseIndex.toNat
                  ⟨Quat.mul (Quat.inverse baseParentPose.rot) newBaseRotation,
                   (rel baseIndex.toNat).trans⟩
              else rel
            else rel)
          rel
      else rel)
    rel

/-- Full mutable state of one AnimInverseKinematics instance, as read and
written by overlay. -/
structure IKState where
  relSize : ℕ
  relativePoses : ℕ → Pose
  rotAcc : ℕ → Accum Quat
  transAcc : ℕ → Accum Vec3
  targetVarVec : List IKTargetVar
  hipsOffset : Vec3
  maxHipsOffsetLength : ℚ
  maxTargetIndex : Int
  hipsTargetIndex : Int
  hipsIndex : Int
  headIndex : Int
  hipsParentIndex : Int
  leftHandIndex : Int
  rightHandIndex : Int
  splineJointInfoMap : List (Int × List SplineJointInfo)
  maxErrorOnLastSolve : ℚ
  prevDebugIKTargets : Bool
  uncontrolledLeftHandPose : Pose
  uncontrolledRightHandPose : Pose
  uncontrolledHipsPose : Pose
  constraints : ℕ → Option Constraint
  solutionSource : SolutionSource
  solutionSourceVar : String
  limitCenterPoses : ℕ → Pose

/-- Debug-draw flags carried by the AnimContext; they never influence the
solved poses. -/
structure AnimContext where
  enableDebugDrawIKTargets : Bool
  enableDebugDrawIKChains : Bool
  enableDebugDrawIKConstraints : Bool

instance : Inhabited IKTarget :=
  ⟨{ type := TargetType.Unknown, rot := Quat.one, trans := Vec3.zero,
     index := -1, weight := 0, flexCoefficients := [],
     poleVectorEnabled := false, poleVector := Vec3.unitZ,
     poleReferenceVector := Vec3.unitZ }⟩

/-- AnimInverseKinematics::loadPoses (lines 233-244): adopt the incoming
poses when their count matches the skeleton, clearing everything otherwise;
the accumulator vectors are resized (kept up to the old size, fresh clean
entries beyond it). -/
def loadPoses (S : Skeleton) (st : IKState) (underSize : ℕ)
    (under : ℕ → Pose) : IKState :=
  if S.numJoints = underSize then
    { st with
      relSize := underSize
      relativePoses := under
      rotAcc := fun i => if i < underSize ∧ i < st.relSize then st.rotAcc i else Accum.empty
      transAcc := fun i => if i < underSize ∧ i < st.relSize then st.transAcc i else Accum.empty }
  else
    { st with
      relSize := 0
      rotAcc := fun _ => Accum.empty
      transAcc := fun _ => Accum.empty }

/-- Uncontrolled-pose bookkeeping at the tail of overlay (lines 1069-1077). -/
def finalizeUncontrolled (S : Skeleton) (under : ℕ → Pose) (st : IKState) :
    IKState :=
  let st1 := if -1 < st.leftHandIndex
             then { st with uncontrolledLeftHandPose := absPoseOf S under st.leftHandIndex.toNat }
             else st
  let st2 := if -1 < st1.rightHandIndex
             then { st1 with uncontrolledRightHandPose := absPoseOf S under st1.rightHandIndex.toNat }
             else st1
  if -1 < st2.hipsIndex
  then { st2 with uncontrolledHipsPose := absPoseOf S under st2.hipsIndex.toNat }
  else st2

/-- Hips shift of overlay (lines 982-1009): slam the hips relative pose to an
explicit hips target, or apply the low-pass-filtered offset from the previous
frame when its length exceeds the dead zone. -/
def overlayHipsShift (O : Oracle) (S : Skeleton) (st : IKState)
    (targets : List IKTarget) : ℕ → Pose :=
  if 0 ≤ st.hipsTargetIndex ∧ st.hipsTargetIndex.toNat < targets.length then
    let tgt := targets.getD st.hipsTargetIndex.toNat default
    let absPose := tgt.pose
    let parentIndex := S.parents tgt.index.toNat
    if parentIndex ≠ -1 then
      upd st.relativePoses st.hipsIndex.toNat
        (Pose.comp (Pose.inv (absPoseOf S st.relativePoses parentIndex.toNat)) absPose)
    else
      upd st.relativePoses st.hipsIndex.toNat absPose
  else
    let offsetLength := O.lengthV st.hipsOffset
    if mkRat 3 100 < offsetLength ∧ 0 ≤ st.hipsIndex then
      let scaleFactor := qdiv (offsetLength - mkRat 3 100) offsetLength
      let hipsOffset := Vec3.scale scaleFactor st.hipsOffset
      if st.hipsParentIndex = -1 then
        upd st.relativePoses st.hipsIndex.toNat
          ⟨(st.relativePoses st.hipsIndex.toNat).rot,
           (st.relativePoses st.hipsIndex.toNat).trans + hipsOffset⟩
      else
        let absHipsPose0 := absPoseOf S st.relativePoses st.hipsIndex.toNat
        let absHipsPose : Pose := ⟨absHipsPose0.rot, absHipsPose0.trans + hipsOffset⟩
        upd st.relativePoses st.hipsIndex.toNat
          (Pose.comp (Pose.inv (absPoseOf S st.relativePoses st.hipsParentIndex.toNat)) absHipsPose)
    else st.relativePoses

/-- AnimInverseKinematics::overlay (lines 940-1080).  The debug-draw calls
have no effect on solver output; the only state they touch is the remembered
debug flag. -/
def overlay (O : Oracle) (S : Skeleton) (ctx : AnimContext) (vars : AnimVars)
    (dt0 : ℚ) (underSize : ℕ) (under : ℕ → Pose) (st0 : IKState) : IKState :=
  let solutionSource := SolutionSource.ofInt
    (vars.lookupInt st0.solutionSourceVar st0.solutionSource.toInt)
  let dt := if mkRat 1 30 < dt0 then mkRat 1 30 else dt0
  let st1 :=
    if st0.relSize ≠ underSize then loadPoses S st0 underSize under
    else
      -- relax toward the solution source; dynamicallyAdjustLimits only widens
      -- constraint-internal limit state, which the abstract constraint
      -- functions absorb
      let relInit := initRelativePosesFromSolutionSource O st0.relSize st0.rotAcc
        st0.hipsIndex st0.limitCenterPoses solutionSource st0.relativePoses under
      { st0 with relativePoses := relInit }
  if st1.relSize ≠ 0 then
    let ct := computeTargets O S vars under st1.hipsIndex st1.targetVarVec
    let st2 : IKState := { st1 with
                 targetVarVec := ct.targetVarVec
                 maxTargetIndex := ct.maxTargetIndex
                 hipsTargetIndex := ct.hipsTargetIndex }
    let st3 :=
      if ct.targets.isEmpty then { st2 with relativePoses := under }
      else
        let relA := overlayHipsShift O S st2 ct.targets
        let shiftedHipsAbsPose := absPoseOf S relA st2.hipsIndex.toNat
        let underHipsAbsPose := absPoseOf S under st2.hipsIndex.toNat
        let absHipsOffset := shiftedHipsAbsPose.trans - underHipsAbsPose.trans
        let targets2 := ct.targets.map (fun t =>
          if t.type = TargetType.HipsRelativeRotationAndPosition
          then { t with trans := t.trans + absHipsOffset }
          else t)
        let st2b : IKState := { st2 with
                      relativePoses := relA
                      prevDebugIKTargets := ctx.enableDebugDrawIKTargets }
        let rel2 := preconditionRelativePosesToAvoidLimbLock O S targets2 st2b.relativePoses
        let idx : SolverIdx := ⟨st2b.hipsIndex, st2b.headIndex, st2b.hipsTargetIndex⟩
        let so := solve O S idx st2b.constraints targets2 st2b.relSize rel2
                    st2b.rotAcc st2b.transAcc st2b.splineJointInfoMap
        let st4 : IKState := { st2b with
                     relativePoses := so.rel
                     rotAcc := so.rotAcc
                     transAcc := so.transAcc
                     splineJointInfoMap := so.splineMap
                     maxErrorOnLastSolve := so.maxErrorOnLastSolve }
        if st4.hipsTargetIndex < 0 then
          let newOffset := computeHipsOffset O S st4.headIndex st4.maxHipsOffsetLength
            targets2 under st4.relativePoses dt st4.hipsOffset
          { st4 with hipsOffset := newOffset }
        else { st4 with hipsOffset := Vec3.zero }
    finalizeUncontrolled S under st3
  else
    finalizeUncontrolled S under st1

end HifiIK

/-! ## Helper lemmas and witness fixtures -/

namespace HifiIK

/-- Oracle instantiation used by the concrete witnesses (any instantiation
works for the structural theorems). -/
def wOracle : Oracle :=
  { sqrtQ := fun _ => 0, acosQ := fun _ => 0, sinQ := fun _ => 0,
    cosQ := fun _ => 0, powQ := fun _ _ => 0, avgRot := fun _ => Quat.one,
    arcLen := fun _ _ _ _ _ => 0, arcLenInv := fun _ _ _ _ _ => 0,
    quatCast := fun _ _ _ => Quat.one,
    basisFromYX := fun _ _ => (Vec3.unitX, Vec3.unitY) }

/-- Two-joint chain skeleton used by witnesses: joint 0 is the root, joint 1
its child. -/
def wSkel2 : Skeleton :=
  { numJoints := 2, parents := fun i => (i : Int) - 1,
    nameToJointIndex := fun _ => -1,
    relativeDefaultPose := fun _ => Pose.id,
    absoluteDefaultPose := fun _ => Pose.id }

/-- Concrete relative poses used by witnesses. -/
def wRel : ℕ → Pose := fun i => ⟨Quat.one, ⟨(i : ℚ), 0, 0⟩⟩

/-- Target fixture: RotationAndPosition target on joint 1 of the two-joint
chain (its grandparent is absent). -/
def wTargetRP : IKTarget :=
  { type := TargetType.RotationAndPosition, rot := Quat.one, trans := ⟨1, 2, 3⟩,
    index := 1, weight := 1, flexCoefficients := [1],
    poleVectorEnabled := false, poleVector := Vec3.unitZ,
    poleReferenceVector := Vec3.unitZ }

def wAccQ : ℕ → Accum Quat := fun _ => Accum.empty
def wAccV : ℕ → Accum Vec3 := fun _ => Accum.empty

/-! ## Claim C3: the chain walk versus the pelvis -/

/-- k-fold parent iteration over the skeleton's parent table; a negative
index steps to -1 and stays there. -/
def iterParent (parents : ℕ → Int) : ℕ → Int → Int
  | 0, j => j
  | k + 1, j => if j < 0 then -1 else iterParent parents k (parents j.toNat)

/-- Three-joint chain skeleton used by the C3 counterexample; the hips sit at
index 2. -/
def wSkel3 : Skeleton :=
  { numJoints := 3, parents := fun i => (i : Int) - 1,
    nameToJointIndex := fun _ => -1,
    relativeDefaultPose := fun _ => Pose.id,
    absoluteDefaultPose := fun _ => Pose.id }

/-- Target fixture for the C3 counterexample: a RotationAndPosition target
whose tip joint IS the hips joint (index 2). -/
def wTargetHips : IKTarget :=
  { type := TargetType.RotationAndPosition, rot := Quat.one, trans := ⟨1, 0, 0⟩,
    index := 2, weight := 1, flexCoefficients := [1],
    poleVectorEnabled := false, poleVector := Vec3.unitZ,
    poleReferenceVector := Vec3.unitZ }

/-- Four-joint chain skeleton for the C3 witness: hips at joint 1, tip at
joint 3 two links below it. -/
def wSkel4 : Skeleton :=
  { numJoints := 4, parents := fun i => (i : Int) - 1,
    nameToJointIndex := fun _ => -1,
    relativeDefaultPose := fun _ => Pose.id,
    absoluteDefaultPose := fun _ => Pose.id }

/-- Target fixture for the C3 witness: tip at joint 3. -/
def wTargetTip3 : IKTarget :=
  { type := TargetType.RotationAndPosition, rot := Quat.one, trans := ⟨1, 0, 0⟩,
    index := 3, weight := 1, flexCoefficients := [1],
    poleVectorEnabled := false, poleVector := Vec3.unitZ,
    poleReferenceVector := Vec3.unitZ }

/-! ## Claim C5: the final RotationOnly pass -/

/-- The guard of the final pass of solve for one target: tip has a parent,
its rotation accumulator is not dirty, and the target is RotationOnly. -/
def finalPassApplies (S : Skeleton) (rotAcc : ℕ → Accum Quat) (t : IKTarget) : Prop :=
  S.parents t.index.toNat ≠ -1 ∧ (rotAcc t.index.toNat).isDirty = false ∧
    t.type = TargetType.RotationOnly

instance (S : Skeleton) (rotAcc : ℕ → Accum Quat) (t : IKTarget) :
    Decidable (finalPassApplies S rotAcc t) := by
  unfold finalPassApplies
  infer_instance

/-- RotationOnly target fixture on joint 1 of the two-joint chain. -/
def wTargetRO : IKTarget :=
  { type := TargetType.RotationOnly, rot := ⟨0, 1, 0, 0⟩, trans := ⟨0, 0, 0⟩,
    index := 1, weight := 1, flexCoefficients := [1],
    poleVectorEnabled := false, poleVector := Vec3.unitZ,
    poleReferenceVector := Vec3.unitZ }

/-- Oracle fixture whose square root is exact on the inputs used by the C6
witness. -/
def wSqrtO : Oracle :=
  { wOracle with sqrtQ := fun x => if x = 4 then 2 else if x = 1 then 1 else 0 }

def wTr : Vec3 := ⟨0, 2, 0⟩
def wDefTrans : Vec3 := ⟨1, 0, 0⟩

/-- Sum, over the RotationAndPosition targets of a list, of (target position
− achieved position) — the unbiased offset sum named by the claim. -/
def sumPositionalDeltas (S : Skeleton) (rel : ℕ → Pose) :
    List IKTarget → Vec3
  | [] => Vec3.zero
  | t :: rest =>
    if t.type = TargetType.RotationAndPosition
    then (t.trans - (absPoseOf S rel t.index.toNat).trans) +
      sumPositionalDeltas S rel rest
    else sumPositionalDeltas S rel rest

/-- Fixture: a head RotationAndPosition target with zero positional
discrepancy (target position equals the achieved position 0). -/
def wHeadT : IKTarget :=
  { type := TargetType.RotationAndPosition, rot := Quat.one, trans := Vec3.zero,
    index := 0, weight := 1, flexCoefficients := [1],
    poleVectorEnabled := false, poleVector := Vec3.unitZ,
    poleReferenceVector := Vec3.unitZ }

/-- Fixture: a hand-style RotationAndPosition target with zero positional
discrepancy. -/
def wHandT : IKTarget :=
  { type := TargetType.RotationAndPosition, rot := Quat.one, trans := Vec3.zero,
    index := 1, weight := 1, flexCoefficients := [1],
    poleVectorEnabled := false, poleVector := Vec3.unitZ,
    poleReferenceVector := Vec3.unitZ }

/-! ## Claim C8: overlay with an empty target list -/

/-- Fixture: an AnimVars map that answers every lookup with its default. -/
def wVars : AnimVars :=
  ⟨fun _ d => d, fun _ d => d, fun _ d => d, fun _ d => d, fun _ d => d,
   fun _ d => d⟩

/-- Fixture: an AnimContext with all debug-draw flags off. -/
def wCtx : AnimContext := ⟨false, false, false⟩

/-- Fixture: a solver state whose joint-0 rotation accumulator is still dirty
from a previous frame (its chain was touched by an earlier solve) and whose
target-var list is empty. -/
def wStDirty : IKState :=
  { relSize := 1
    relativePoses := fun _ => Pose.id
    rotAcc := fun _ => ⟨[], true⟩
    transAcc := fun _ => Accum.empty
    targetVarVec := []
    hipsOffset := Vec3.zero
    maxHipsOffsetLength := 1
    maxTargetIndex := -1
    hipsTargetIndex := -1
    hipsIndex := 0
    headIndex := -1
    hipsParentIndex := -1
    leftHandIndex := -1
    rightHandIndex := -1
    splineJointInfoMap := []
    maxErrorOnLastSolve := 0
    prevDebugIKTargets := false
    uncontrolledLeftHandPose := Pose.id
    uncontrolledRightHandPose := Pose.id
    uncontrolledHipsPose := Pose.id
    constraints := fun _ => none
    solutionSource := SolutionSource.PreviousSolution
    solutionSourceVar := emptyName
    limitCenterPoses := fun _ => Pose.id }

/-! ## Claim C10: unresolved target vars defer to the next call -/

/-- The single target-var the per-var loop of computeTargets appends to the
compacted var vector: an unresolved var gets its resolved joint index cached
when the skeleton knows the name, and is kept unchanged otherwise. -/
def ctProcessVar (S : Skeleton) (tv : IKTargetVar) : IKTargetVar :=
  if tv.jointIndex = -1 then
    (if 0 ≤ S.nameToJointIndex tv.jointName
     then { tv with jointIndex := S.nameToJointIndex tv.jointName }
     else tv)
  else tv

/-- Fixture: a target var not yet resolved against the skeleton. -/
def wTVv : IKTargetVar :=
  { jointName := emptyName, positionVar := emptyName, rotationVar := emptyName,
    typeVar := emptyName, weightVar := emptyName,
    poleVectorEnabledVar := emptyName, poleReferenceVectorVar := emptyName,
    poleVectorVar := emptyName, weight := 1, flexCoefficients := [1],
    jointIndex := -1 }

/-- Fixture: a two-joint chain skeleton that resolves every joint name to
joint 1. -/
def wSkelN : Skeleton :=
  { numJoints := 2, parents := fun i => (i : Int) - 1,
    nameToJointIndex := fun _ => 1,
    relativeDefaultPose := fun _ => Pose.id,
    absoluteDefaultPose := fun _ => Pose.id }

end HifiIK

/-! ## Theorems -/

namespace HifiIK

theorem computeAbsolutePosesAux_untouched (S : Skeleton) (rel : ℕ → Pose)
    (k : ℕ) (abs0 : ℕ → Pose) (j : ℕ) (hj : k ≤ j) :
    computeAbsolutePosesAux S rel k abs0 j = abs0 j := by
  induction k with
  | zero => rfl
  | succ k ih =>
    have hkj : k ≤ j := Nat.le_of_succ_le hj
    have hne : j ≠ k := fun h => absurd hj (by
      subst h
      exact Nat.not_succ_le_self j)
    simp only [computeAbsolutePosesAux, upd, if_neg hne]
    exact ih hkj

theorem computeAbsolutePosesAux_stable (S : Skeleton) (rel : ℕ → Pose)
    (abs0 : ℕ → Pose) (i k k' : ℕ) (hik : i < k) (hkk : k ≤ k') :
    computeAbsolutePosesAux S rel k' abs0 i = computeAbsolutePosesAux S rel k abs0 i := by
  induction k', hkk using Nat.le_induction with
  | base => rfl
  | succ k' hkk ih =>
    have hne : i ≠ k' := Nat.ne_of_lt (Nat.lt_of_lt_of_le hik hkk)
    simp only [computeAbsolutePosesAux, upd, if_neg hne]
    exact ih

/-- Claim C2: for a relative-pose array whose size matches the joint count and
whose parent indices respect topological order, computeAbsolutePoses assigns
every root joint (negative parent) its relative pose, and every other joint
the composition of its parent's computed absolute pose with its own relative
pose. -/
theorem computeAbsolutePoses_spec (S : Skeleton) (rel abs0 : ℕ → Pose)
    (hpar : ∀ j, j < S.numJoints → S.parents j < (j : Int))
    (i : ℕ) (hi : i < S.numJoints) :
    (S.parents i < 0 →
      computeAbsolutePoses S S.numJoints rel abs0 i = rel i) ∧
    (0 ≤ S.parents i →
      computeAbsolutePoses S S.numJoints rel abs0 i =
        Pose.comp (computeAbsolutePoses S S.numJoints rel abs0 (S.parents i).toNat)
          (rel i)) := by
  have hstep : computeAbsolutePoses S S.numJoints rel abs0 i =
      computeAbsolutePosesAux S rel (i + 1) abs0 i := by
    unfold computeAbsolutePoses
    exact computeAbsolutePosesAux_stable S rel abs0 i (i + 1) S.numJoints
      (Nat.lt_succ_self i) (Nat.succ_le_of_lt hi)
  have hat : computeAbsolutePosesAux S rel (i + 1) abs0 i =
      if S.parents i < 0 then rel i
      else Pose.comp (computeAbsolutePosesAux S rel i abs0 (S.parents i).toNat) (rel i) := by
    simp [computeAbsolutePosesAux, upd]
  constructor
  · intro hneg
    rw [hstep, hat, if_pos hneg]
  · intro hpos
    have hnotneg : ¬ S.parents i < 0 := not_lt.mpr hpos
    have hplt : (S.parents i).toNat < i := by
      have := hpar i hi
      omega
    have hparent : computeAbsolutePosesAux S rel i abs0 (S.parents i).toNat =
        computeAbsolutePoses S S.numJoints rel abs0 (S.parents i).toNat := by
      unfold computeAbsolutePoses
      exact (computeAbsolutePosesAux_stable S rel abs0 (S.parents i).toNat i S.numJoints
        hplt (Nat.le_of_lt hi)).symm
    rw [hstep, hat, if_neg hnotneg, hparent]

/-- Closed witness for C2 on the two-joint chain. -/
theorem computeAbsolutePoses_spec_witness :
    computeAbsolutePoses wSkel2 wSkel2.numJoints wRel (fun _ => Pose.id) 1 =
      Pose.comp (computeAbsolutePoses wSkel2 wSkel2.numJoints wRel (fun _ => Pose.id) 0)
        (wRel 1) :=
  (computeAbsolutePoses_spec wSkel2 wRel (fun _ => Pose.id)
    (by decide) 1 (by decide)).2 (by decide)

/-! ## Claim C4: degenerate chain topology skips the target -/

/-- Claim C4: a target whose tip parent is absent (-1) or is the pelvis, or
whose grandparent is absent, makes solveTargetWithCCD return with the
accumulator state unchanged.  (solveTargetWithCCD only transforms the
accumulators — it never writes a pose — so an unchanged accumulator pair is
exactly an unchanged solver state for that call.) -/
theorem solveTargetWithCCD_skips_degenerate (O : Oracle) (S : Skeleton)
    (idx : SolverIdx) (constraints : ℕ → Option Constraint) (target : IKTarget)
    (rel absPoses : ℕ → Pose) (rotAcc : ℕ → Accum Quat) (transAcc : ℕ → Accum Vec3)
    (h : S.parents target.index.toNat = -1 ∨
         S.parents target.index.toNat = idx.hipsIndex ∨
         S.parents (S.parents target.index.toNat).toNat = -1) :
    solveTargetWithCCD O S idx constraints target rel absPoses rotAcc transAcc =
      (rotAcc, transAcc) := by
  unfold solveTargetWithCCD ccdJointChainInfos
  by_cases hro : target.type = TargetType.RotationOnly
  · simp [hro, addChainToAccumulators]
  · simp only [if_neg hro]
    by_cases hpp : S.parents target.index.toNat = -1 ∨
        S.parents target.index.toNat = idx.hipsIndex
    · simp [hpp, addChainToAccumulators]
    · have h3 : S.parents (S.parents target.index.toNat).toNat = -1 := by tauto
      simp [hpp, h3, addChainToAccumulators]

/-- Closed witness for C4: the grandparent of joint 1 in the two-joint chain
is absent, so the call leaves the accumulators untouched. -/
theorem solveTargetWithCCD_skips_degenerate_witness :
    solveTargetWithCCD wOracle wSkel2 ⟨-1, -1, -1⟩ (fun _ => none) wTargetRP
      wRel (fun _ => Pose.id) wAccQ wAccV = (wAccQ, wAccV) :=
  solveTargetWithCCD_skips_degenerate wOracle wSkel2 ⟨-1, -1, -1⟩ (fun _ => none)
    wTargetRP wRel (fun _ => Pose.id) wAccQ wAccV (by decide)

theorem iterParent_zero (parents : ℕ → Int) (j : Int) :
    iterParent parents 0 j = j := rfl

theorem iterParent_succ (parents : ℕ → Int) (k : ℕ) (j : Int) (hj : 0 ≤ j) :
    iterParent parents (k + 1) j = iterParent parents k (parents j.toNat) := by
  simp [iterParent, not_lt.mpr hj]

theorem iterParent_neg (parents : ℕ → Int) (k : ℕ) (j : Int) (hj : j < 0) :
    iterParent parents k j = j ∨ iterParent parents k j = -1 := by
  cases k with
  | zero => exact Or.inl rfl
  | succ k => exact Or.inr (by simp [iterParent, hj])

/-- Counterexample to C3 as stated: with the hips at joint 2 of a three-joint
chain and a RotationAndPosition target whose tip is the hips joint itself,
solveTargetWithCCD adds a rotation-accumulator sample at the hips joint
index (and also walks above it: joint 1, an ancestor of the hips, receives a
sample too). -/
theorem solveTargetWithCCD_hips_sample_counterexample :
    ((solveTargetWithCCD wOracle wSkel3 ⟨2, -1, -1⟩ (fun _ => none) wTargetHips
        wRel (fun _ => Pose.id) wAccQ wAccV).1 2).size = 1 ∧
    ((solveTargetWithCCD wOracle wSkel3 ⟨2, -1, -1⟩ (fun _ => none) wTargetHips
        wRel (fun _ => Pose.id) wAccQ wAccV).1 1).size = 1 := by
  constructor <;> rfl

theorem upd_ne {α : Type} (f : ℕ → α) (i j : ℕ) (a : α) (h : j ≠ i) :
    upd f i a j = f j := if_neg h

theorem addChainToAccumulators_cons (info : JointChainInfo)
    (rest : List JointChainInfo) (ra : ℕ → Accum Quat) (ta : ℕ → Accum Vec3) :
    addChainToAccumulators (info :: rest) ra ta =
      addChainToAccumulators rest
        (upd ra info.jointIndex.toNat
          ((ra info.jointIndex.toNat).add info.relRot info.weight))
        (upd ta info.jointIndex.toNat
          ((ta info.jointIndex.toNat).add info.relTrans info.weight)) := rfl

theorem addChainToAccumulators_untouched (infos : List JointChainInfo)
    (ra : ℕ → Accum Quat) (ta : ℕ → Accum Vec3) (j : ℕ)
    (h : ∀ info ∈ infos, info.jointIndex.toNat ≠ j) :
    (addChainToAccumulators infos ra ta).1 j = ra j ∧
    (addChainToAccumulators infos ra ta).2 j = ta j := by
  induction infos generalizing ra ta with
  | nil => exact ⟨rfl, rfl⟩
  | cons info rest ih =>
    have hne : j ≠ info.jointIndex.toNat :=
      fun hh => (h info (List.mem_cons_self _ _)) hh.symm
    rw [addChainToAccumulators_cons]
    have hrec := ih
      (upd ra info.jointIndex.toNat
        ((ra info.jointIndex.toNat).add info.relRot info.weight))
      (upd ta info.jointIndex.toNat
        ((ta info.jointIndex.toNat).add info.relTrans info.weight))
      (fun i hi => h i (List.mem_cons_of_mem _ hi))
    exact ⟨hrec.1.trans (upd_ne _ _ _ _ hne), hrec.2.trans (upd_ne _ _ _ _ hne)⟩

/-- Rewriting the relRot of one list position never changes the staged joint
indices. -/
theorem map_jointIndex_modify_relRot (r : Quat) (n : ℕ)
    (l : List JointChainInfo) :
    (List.modify (fun e => { e with relRot := r }) n l).map (fun e => e.jointIndex) =
      l.map (fun e => e.jointIndex) := by
  induction l generalizing n with
  | nil => simp [List.modify_nil]
  | cons a l ih =>
    cases n with
    | zero => simp [List.modify_zero_cons]
    | succ n => simp [List.modify_succ_cons, ih]

/-- The pole-vector correction rewrites rotations of existing entries but
never changes which joints are staged. -/
theorem poleVectorAdjust_map_jointIndex (O : Oracle) (S : Skeleton)
    (idx : SolverIdx) (target : IKTarget) (absPoses : ℕ → Pose)
    (chain : List JointChainInfo) :
    (poleVectorAdjust O S idx target absPoses chain).map (fun e => e.jointIndex) =
      chain.map (fun e => e.jointIndex) := by
  unfold poleVectorAdjust
  by_cases h1 : target.poleVectorEnabled = true
  · simp only [if_pos h1]
    by_cases h2 : S.parents target.index.toNat ≠ -1
    · simp only [if_pos h2]
      by_cases h3 : S.parents (S.parents target.index.toNat).toNat ≠ -1
      · simp only [if_pos h3]
        rw [map_jointIndex_modify_relRot, map_jointIndex_modify_relRot]
      · simp only [if_neg h3]
    · simp only [if_neg h2]
  · simp only [if_neg h1]

/-- Every entry staged by the tip-alignment block is for the tip joint. -/
theorem ccdTipStage_jointIndex (constraints : ℕ → Option Constraint)
    (target : IKTarget) (rel : ℕ → Pose) (q1 q2 : Quat) :
    ∀ e ∈ (ccdTipStage constraints target rel q1 q2).1, e.jointIndex = target.index := by
  unfold ccdTipStage
  by_cases ht : target.type = TargetType.HmdHead ∨
      target.type = TargetType.RotationAndPosition ∨
      target.type = TargetType.HipsRelativeRotationAndPosition
  · simp only [if_pos ht]
    cases hc : constraints target.index.toNat with
    | none =>
      intro e he
      simp only [List.mem_singleton] at he
      subst he
      rfl
    | some c =>
      intro e he
      simp only [List.mem_singleton] at he
      subst he
      rfl
  · simp only [if_neg ht]
    intro e he
    simp at he

theorem ccdWalk_entries (O : Oracle) (S : Skeleton) (idx : SolverIdx)
    (constraints : ℕ → Option Constraint) (target : IKTarget)
    (rel absPoses : ℕ → Pose) (hh : 0 ≤ idx.hipsIndex) :
    ∀ (fuel : ℕ) (p pp : Int) (tip : CCDTip) (depth : ℕ) (m' : ℕ),
      pp = S.parents p.toNat →
      iterParent S.parents m' p = idx.hipsIndex →
      ∀ info ∈ ccdWalk O S idx constraints target rel absPoses fuel p pp tip depth,
        ∃ j, j < m' ∧ info.jointIndex = iterParent S.parents j p := by
  intro fuel
  induction fuel with
  | zero =>
    intro p pp tip depth m' _ _ info hinfo
    simp [ccdWalk] at hinfo
  | succ fuel ih =>
    intro p pp tip depth m' hpp hchain info hinfo
    rw [ccdWalk] at hinfo
    by_cases hcond : p ≠ idx.hipsIndex ∧ pp ≠ -1
    · rw [if_pos hcond] at hinfo
      have hp0 : 0 ≤ p := by
        by_contra hneg
        push_neg at hneg
        rcases iterParent_neg S.parents m' p hneg with he | he <;> omega
      have hm' : m' ≠ 0 := by
        intro h0
        subst h0
        exact hcond.1 hchain
      obtain ⟨m'', rfl⟩ : ∃ m'', m' = m'' + 1 := ⟨m' - 1, by omega⟩
      have hchain' : iterParent S.parents m'' (S.parents p.toNat) = idx.hipsIndex := by
        rw [← iterParent_succ S.parents m'' p hp0]
        exact hchain
      simp only [List.mem_cons] at hinfo
      rcases hinfo with rfl | hmem
      · exact ⟨0, by omega, rfl⟩
      · obtain ⟨j, hj, hidx⟩ := ih pp (S.parents pp.toNat) _ (depth + 1) m'' rfl
          (by rw [hpp]; exact hchain') info hmem
        refine ⟨j + 1, by omega, ?_⟩
        rw [iterParent_succ S.parents j p hp0, ← hpp]
        exact hidx
    · rw [if_neg hcond] at hinfo
      simp at hinfo

theorem iterParent_le_self (parents : ℕ → Int)
    (hdec : ∀ i, parents i < (i : Int)) :
    ∀ (k : ℕ) (t : Int), 0 ≤ t → iterParent parents k t ≤ t := by
  intro k
  induction k with
  | zero => intro t _; exact le_refl t
  | succ k ih =>
    intro t ht
    rw [iterParent_succ parents k t ht]
    have hp : parents t.toNat < t := by
      have := hdec t.toNat
      omega
    by_cases hp0 : 0 ≤ parents t.toNat
    · exact le_trans (ih _ hp0) (le_of_lt hp)
    · push_neg at hp0
      rcases iterParent_neg parents k _ hp0 with he | he <;> omega

theorem iterParent_lt (parents : ℕ → Int)
    (hdec : ∀ i, parents i < (i : Int)) :
    ∀ (m : ℕ) (t : Int), 0 ≤ iterParent parents m t →
      ∀ j, j < m → iterParent parents m t < iterParent parents j t := by
  intro m
  induction m with
  | zero => intro t _ j hj; omega
  | succ m ih =>
    intro t hpos j hj
    have ht0 : 0 ≤ t := by
      by_contra hneg
      push_neg at hneg
      rcases iterParent_neg parents (m + 1) t hneg with he | he <;> omega
    rw [iterParent_succ parents m t ht0] at hpos ⊢
    have hpt : parents t.toNat < t := by
      have := hdec t.toNat
      omega
    cases j with
    | zero =>
      rw [iterParent_zero]
      by_cases hp0 : 0 ≤ parents t.toNat
      · exact lt_of_le_of_lt (iterParent_le_self parents hdec m _ hp0) hpt
      · push_neg at hp0
        rcases iterParent_neg parents m _ hp0 with he | he <;> omega
    | succ j =>
      rw [iterParent_succ parents j t ht0]
      exact ih _ hpos j (by omega)

/-- Every entry staged by solveTargetWithCCD for a tip whose ancestor chain
reaches the hips in m steps is a strict-descendant chain element
iterParent^j(tip) with j < m. -/
theorem ccdJointChainInfos_entries (O : Oracle) (S : Skeleton) (idx : SolverIdx)
    (constraints : ℕ → Option Constraint) (target : IKTarget)
    (rel absPoses : ℕ → Pose) (m : ℕ) (hm : 1 ≤ m) (hh : 0 ≤ idx.hipsIndex)
    (hchain : iterParent S.parents m target.index = idx.hipsIndex) :
    ∀ info ∈ ccdJointChainInfos O S idx constraints target rel absPoses,
      ∃ j, j < m ∧ info.jointIndex = iterParent S.parents j target.index := by
  intro info hinfo
  have hp0 : 0 ≤ target.index := by
    by_contra hneg
    push_neg at hneg
    rcases iterParent_neg S.parents m target.index hneg with he | he <;> omega
  simp only [ccdJointChainInfos] at hinfo
  by_cases h0 : target.type = TargetType.RotationOnly
  · rw [if_pos h0] at hinfo
    simp at hinfo
  · rw [if_neg h0] at hinfo
    by_cases h1 : S.parents target.index.toNat = -1 ∨
        S.parents target.index.toNat = idx.hipsIndex
    · rw [if_pos h1] at hinfo
      simp at hinfo
    · rw [if_neg h1] at hinfo
      by_cases h2 : S.parents (S.parents target.index.toNat).toNat = -1
      · rw [if_pos h2] at hinfo
        simp at hinfo
      · rw [if_neg h2] at hinfo
        have hmap : info.jointIndex ∈
            ((ccdTipStage constraints target rel
                (absPoses target.index.toNat).rot
                (absPoses (S.parents target.index.toNat).toNat).rot).1 ++
              ccdWalk O S idx constraints target rel absPoses 29
                (S.parents target.index.toNat)
                (S.parents (S.parents target.index.toNat).toNat)
                ⟨(absPoses target.index.toNat).trans,
                 (ccdTipStage constraints target rel
                   (absPoses target.index.toNat).rot
                   (absPoses (S.parents target.index.toNat).toNat).rot).2,
                 (absPoses (S.parents target.index.toNat).toNat).rot⟩ 1).map
              (fun e => e.jointIndex) := by
          rw [← poleVectorAdjust_map_jointIndex O S idx target absPoses]
          exact List.mem_map_of_mem _ hinfo
        rw [List.map_append, List.mem_append] at hmap
        obtain ⟨m'', rfl⟩ : ∃ m'', m = m'' + 1 := ⟨m - 1, by omega⟩
        have hchain' : iterParent S.parents m'' (S.parents target.index.toNat) =
            idx.hipsIndex := by
          rw [← iterParent_succ S.parents m'' target.index hp0]
          exact hchain
        rcases hmap with hl | hr
        · obtain ⟨e, he, heq⟩ := List.mem_map.mp hl
          have he2 := ccdTipStage_jointIndex constraints target rel _ _ e he
          exact ⟨0, by omega, by rw [← heq, he2]; rfl⟩
        · obtain ⟨e, he, heq⟩ := List.mem_map.mp hr
          obtain ⟨j, hj, hje⟩ := ccdWalk_entries O S idx constraints target rel
            absPoses hh 29 (S.parents target.index.toNat)
            (S.parents (S.parents target.index.toNat).toNat) _ 1 m'' rfl hchain' e he
          refine ⟨j + 1, by omega, ?_⟩
          rw [← heq, hje, iterParent_succ S.parents j target.index hp0]

/-- Claim C3 (amended): for a target whose tip joint lies strictly below the
pelvis (the hips joint is a proper ancestor of the tip, reached in m parent
steps) in a topologically ordered skeleton, solveTargetWithCCD adds no
rotation or translation accumulator sample at the hips joint index nor at
any joint above it (any iterated parent of the hips): those accumulators are
returned exactly as passed in. -/
theorem solveTargetWithCCD_no_sample_at_or_above_hips
    (O : Oracle) (S : Skeleton) (idx : SolverIdx)
    (constraints : ℕ → Option Constraint) (target : IKTarget)
    (rel absPoses : ℕ → Pose) (rotAcc : ℕ → Accum Quat) (transAcc : ℕ → Accum Vec3)
    (hdec : ∀ i, S.parents i < (i : Int))
    (hh : 0 ≤ idx.hipsIndex)
    (m : ℕ) (hm : 1 ≤ m)
    (hchain : iterParent S.parents m target.index = idx.hipsIndex) :
    ∀ k : ℕ,
      (solveTargetWithCCD O S idx constraints target rel absPoses rotAcc transAcc).1
          (iterParent S.parents k idx.hipsIndex).toNat =
        rotAcc (iterParent S.parents k idx.hipsIndex).toNat ∧
      (solveTargetWithCCD O S idx constraints target rel absPoses rotAcc transAcc).2
          (iterParent S.parents k idx.hipsIndex).toNat =
        transAcc (iterParent S.parents k idx.hipsIndex).toNat := by
  intro k
  have hentries : ∀ info ∈ ccdJointChainInfos O S idx constraints target rel absPoses,
      idx.hipsIndex < info.jointIndex := by
    intro info hinfo
    obtain ⟨j, hjm, hje⟩ :=
      ccdJointChainInfos_entries O S idx constraints target rel absPoses m hm hh
        hchain info hinfo
    have hlt := iterParent_lt S.parents hdec m target.index
      (by rw [hchain]; exact hh) j hjm
    rw [hchain] at hlt
    rw [hje]
    exact hlt
  have hba : iterParent S.parents k idx.hipsIndex ≤ idx.hipsIndex :=
    iterParent_le_self S.parents hdec k idx.hipsIndex hh
  apply addChainToAccumulators_untouched
  intro info hinfo
  have h1 := hentries info hinfo
  omega

/-- Closed witness for the amended C3 on a four-joint chain with the hips at
joint 1 and the tip at joint 3: the hips accumulator itself (k = 0) is left
untouched. -/
theorem solveTargetWithCCD_no_sample_at_or_above_hips_witness :
    (solveTargetWithCCD wOracle wSkel4 ⟨1, -1, -1⟩ (fun _ => none) wTargetTip3
        wRel (fun _ => Pose.id) wAccQ wAccV).1
        (iterParent wSkel4.parents 0 (1 : Int)).toNat =
      wAccQ (iterParent wSkel4.parents 0 (1 : Int)).toNat ∧
    (solveTargetWithCCD wOracle wSkel4 ⟨1, -1, -1⟩ (fun _ => none) wTargetTip3
        wRel (fun _ => Pose.id) wAccQ wAccV).2
        (iterParent wSkel4.parents 0 (1 : Int)).toNat =
      wAccV (iterParent wSkel4.parents 0 (1 : Int)).toNat :=
  solveTargetWithCCD_no_sample_at_or_above_hips wOracle wSkel4 ⟨1, -1, -1⟩
    (fun _ => none) wTargetTip3 wRel (fun _ => Pose.id) wAccQ wAccV
    (by intro i; simp only [wSkel4]; omega) (by decide) 2 (by decide) (by decide) 0

/-! ## Claim C1: the relaxation loop bound and early exit -/

theorem solveIteration_numLoops (O : Oracle) (S : Skeleton) (idx : SolverIdx)
    (constraints : ℕ → Option Constraint) (targets : List IKTarget) (n : ℕ)
    (s : LoopState) :
    (solveIteration O S idx constraints targets n s).numLoops = s.numLoops + 1 := rfl

theorem iterate_numLoops (step : LoopState → LoopState)
    (hstep : ∀ s, (step s).numLoops = s.numLoops + 1) :
    ∀ (k : ℕ) (s : LoopState), (step^[k] s).numLoops = s.numLoops + k := by
  intro k
  induction k with
  | zero => intro s; rfl
  | succ k ih =>
    intro s
    rw [Function.iterate_succ_apply, ih, hstep]
    omega

theorem solveLoopGo_numLoops_le (step : LoopState → LoopState)
    (hstep : ∀ s, (step s).numLoops = s.numLoops + 1) :
    ∀ (fuel : ℕ) (s : LoopState),
      (solveLoopGo step fuel s).numLoops ≤ max s.numLoops MAX_IK_LOOPS := by
  intro fuel
  induction fuel with
  | zero => intro s; exact le_max_left _ _
  | succ fuel ih =>
    intro s
    rw [solveLoopGo]
    by_cases hc : MAX_ERROR_TOLERANCE < s.maxError ∧ s.numLoops < MAX_IK_LOOPS
    · rw [if_pos hc]
      have hr := ih (step s)
      rw [hstep] at hr
      have h16 : s.numLoops + 1 ≤ MAX_IK_LOOPS := hc.2
      omega
    · rw [if_neg hc]
      exact le_max_left _ _

theorem solveLoopGo_trace (step : LoopState → LoopState) :
    ∀ (fuel : ℕ) (s : LoopState),
      ∃ k, k ≤ fuel ∧ solveLoopGo step fuel s = step^[k] s ∧
        (∀ j, j < k → MAX_ERROR_TOLERANCE < (step^[j] s).maxError ∧
          (step^[j] s).numLoops < MAX_IK_LOOPS) ∧
        (k < fuel → ¬(MAX_ERROR_TOLERANCE < (step^[k] s).maxError ∧
          (step^[k] s).numLoops < MAX_IK_LOOPS)) := by
  intro fuel
  induction fuel with
  | zero =>
    intro s
    exact ⟨0, le_refl 0, rfl, fun j hj => absurd hj (Nat.not_lt_zero j),
      fun h => absurd h (Nat.lt_irrefl 0)⟩
  | succ fuel ih =>
    intro s
    rw [solveLoopGo]
    by_cases hc : MAX_ERROR_TOLERANCE < s.maxError ∧ s.numLoops < MAX_IK_LOOPS
    · rw [if_pos hc]
      obtain ⟨k, hk, heq, hbefore, hstop⟩ := ih (step s)
      refine ⟨k + 1, by omega, ?_, ?_, ?_⟩
      · rw [heq, Function.iterate_succ_apply]
      · intro j hj
        cases j with
        | zero => exact hc
        | succ j =>
          have hb := hbefore j (by omega)
          rw [Function.iterate_succ_apply]
          exact hb
      · intro hklt
        have hs := hstop (by omega)
        rw [Function.iterate_succ_apply]
        exact hs
    · rw [if_neg hc]
      exact ⟨0, Nat.zero_le _, rfl, fun j hj => absurd hj (Nat.not_lt_zero j),
        fun _ => hc⟩

/-- Claim C1: the relaxation loop of solve runs at most 16 iterations; it
never continues past an iteration whose worst positional error (over the
RotationAndPosition / HmdHead / HipsRelativeRotationAndPosition targets, as
computed by computeMaxError inside solveIteration) is at most the 0.1
tolerance; when it stops before the cap the final error is at most the
tolerance; and when every iteration's error stays above the tolerance the
loop runs exactly the 16-iteration cap — the cap is the sole other bound. -/
theorem solve_loop_bound (O : Oracle) (S : Skeleton) (idx : SolverIdx)
    (constraints : ℕ → Option Constraint) (targets : List IKTarget) (n : ℕ)
    (rel : ℕ → Pose) (rotAcc : ℕ → Accum Quat) (transAcc : ℕ → Accum Vec3)
    (splineMap : List (Int × List SplineJointInfo)) :
    (solveLoopResult O S idx constraints targets n rel rotAcc transAcc splineMap).numLoops
        ≤ MAX_IK_LOOPS ∧
    solveLoopResult O S idx constraints targets n rel rotAcc transAcc splineMap =
      (solveIteration O S idx constraints targets n)^[
        (solveLoopResult O S idx constraints targets n rel rotAcc transAcc splineMap).numLoops]
        (solveInitState S n rel rotAcc transAcc splineMap) ∧
    (∀ k, 0 < k →
      k < (solveLoopResult O S idx constraints targets n rel rotAcc transAcc splineMap).numLoops →
      MAX_ERROR_TOLERANCE <
        ((solveIteration O S idx constraints targets n)^[k]
          (solveInitState S n rel rotAcc transAcc splineMap)).maxError) ∧
    ((solveLoopResult O S idx constraints targets n rel rotAcc transAcc splineMap).numLoops
        < MAX_IK_LOOPS →
      (solveLoopResult O S idx constraints targets n rel rotAcc transAcc splineMap).maxError
        ≤ MAX_ERROR_TOLERANCE) ∧
    ((∀ k, 0 < k → k ≤ MAX_IK_LOOPS →
        MAX_ERROR_TOLERANCE <
          ((solveIteration O S idx constraints targets n)^[k]
            (solveInitState S n rel rotAcc transAcc splineMap)).maxError) →
      (solveLoopResult O S idx constraints targets n rel rotAcc transAcc splineMap).numLoops
        = MAX_IK_LOOPS) := by
  have hstep : ∀ s, (solveIteration O S idx constraints targets n s).numLoops = s.numLoops + 1 :=
    solveIteration_numLoops O S idx constraints targets n
  obtain ⟨k, hk, heq, hbefore, hstop⟩ :=
    solveLoopGo_trace (solveIteration O S idx constraints targets n) MAX_IK_LOOPS
      (solveInitState S n rel rotAcc transAcc splineMap)
  have hinit0 : (solveInitState S n rel rotAcc transAcc splineMap).numLoops = 0 := rfl
  have hkeqnum :
      (solveLoopResult O S idx constraints targets n rel rotAcc transAcc splineMap).numLoops = k := by
    unfold solveLoopResult
    rw [heq, iterate_numLoops _ hstep, hinit0]
    omega
  have hle :
      (solveLoopResult O S idx constraints targets n rel rotAcc transAcc splineMap).numLoops
        ≤ MAX_IK_LOOPS := by
    rw [hkeqnum]; exact hk
  refine ⟨hle, ?_, ?_, ?_, ?_⟩
  · rw [hkeqnum]
    exact heq
  · intro j hj0 hjk
    rw [hkeqnum] at hjk
    exact (hbefore j hjk).1
  · intro hlt
    rw [hkeqnum] at hlt
    have hs := hstop hlt
    have hnum : ((solveIteration O S idx constraints targets n)^[k]
        (solveInitState S n rel rotAcc transAcc splineMap)).numLoops = k := by
      rw [iterate_numLoops _ hstep, hinit0]
      omega
    have herr : ¬ MAX_ERROR_TOLERANCE <
        ((solveIteration O S idx constraints targets n)^[k]
          (solveInitState S n rel rotAcc transAcc splineMap)).maxError := by
      intro hgt
      exact hs ⟨hgt, by rw [hnum]; exact hlt⟩
    have hfin : (solveLoopResult O S idx constraints targets n rel rotAcc transAcc splineMap).maxError =
        ((solveIteration O S idx constraints targets n)^[k]
          (solveInitState S n rel rotAcc transAcc splineMap)).maxError := by
      unfold solveLoopResult
      rw [heq]
    rw [hfin]
    exact not_lt.mp herr
  · intro hall
    rw [hkeqnum]
    by_contra hne
    have hklt : k < MAX_IK_LOOPS := lt_of_le_of_ne hk hne
    have hs := hstop hklt
    have hnum : ((solveIteration O S idx constraints targets n)^[k]
        (solveInitState S n rel rotAcc transAcc splineMap)).numLoops = k := by
      rw [iterate_numLoops _ hstep, hinit0]
      omega
    cases Nat.eq_zero_or_pos k with
    | inl h0 =>
      subst h0
      apply hs
      refine ⟨?_, by rw [hnum]; exact hklt⟩
      have h00 : ((solveIteration O S idx constraints targets n)^[0]
          (solveInitState S n rel rotAcc transAcc splineMap)).maxError = FLT_MAX_Q := rfl
      rw [h00]
      norm_num [MAX_ERROR_TOLERANCE, FLT_MAX_Q]
    | inr hpos =>
      exact hs ⟨hall k hpos hk, by rw [hnum]; exact hklt⟩

/-- Closed witness for C1: on a two-joint skeleton with no targets the loop
stops before the cap (the first error recomputation yields 0), so the final
error is within tolerance. -/
theorem solve_loop_bound_witness :
    (solveLoopResult wOracle wSkel2 ⟨-1, -1, -1⟩ (fun _ => none) [] 2 wRel
        wAccQ wAccV []).maxError ≤ MAX_ERROR_TOLERANCE :=
  (solve_loop_bound wOracle wSkel2 ⟨-1, -1, -1⟩ (fun _ => none) [] 2 wRel
    wAccQ wAccV []).2.2.2.1 (by decide)

theorem qinv_eq (a : ℚ) : qinv a = a⁻¹ := by
  rw [Rat.inv_def']
  unfold qinv
  split
  · rename_i h
    rw [Rat.mkRat_eq_divInt]
    have hna : (a.num.natAbs : Int) = -a.num := by omega
    rw [hna, Rat.neg_divInt_neg]
  · rename_i h
    rw [Rat.mkRat_eq_divInt]
    have hna : (a.num.natAbs : Int) = a.num := by omega
    rw [hna]

theorem qdiv_eq (a b : ℚ) : qdiv a b = a / b := by
  unfold qdiv
  rw [qinv_eq, div_eq_mul_inv]

theorem finalRotationPass_cons (S : Skeleton) (constraints : ℕ → Option Constraint)
    (rotAcc : ℕ → Accum Quat) (a : IKTarget) (rest : List IKTarget)
    (rel absPoses : ℕ → Pose) :
    finalRotationPass S constraints rotAcc (a :: rest) rel absPoses =
      (if finalPassApplies S rotAcc a then
        finalRotationPass S constraints rotAcc rest
          (upd rel a.index.toNat
            ⟨applyConstraintRot (constraints a.index.toNat)
               (Quat.mul (Quat.inverse (absPoses (S.parents a.index.toNat).toNat).rot) a.rot),
             (rel a.index.toNat).trans⟩)
          (upd absPoses a.index.toNat ⟨a.rot, (absPoses a.index.toNat).trans⟩)
      else finalRotationPass S constraints rotAcc rest rel absPoses) := by
  by_cases hc : finalPassApplies S rotAcc a
  · rw [if_pos hc]
    unfold finalPassApplies at hc
    show finalRotationPass S constraints rotAcc rest
        (if S.parents a.index.toNat ≠ -1 ∧ (rotAcc a.index.toNat).isDirty = false ∧
            a.type = TargetType.RotationOnly then _ else (rel, absPoses)).1
        (if S.parents a.index.toNat ≠ -1 ∧ (rotAcc a.index.toNat).isDirty = false ∧
            a.type = TargetType.RotationOnly then _ else (rel, absPoses)).2 = _
    rw [if_pos hc]
  · rw [if_neg hc]
    unfold finalPassApplies at hc
    show finalRotationPass S constraints rotAcc rest
        (if S.parents a.index.toNat ≠ -1 ∧ (rotAcc a.index.toNat).isDirty = false ∧
            a.type = TargetType.RotationOnly then _ else (rel, absPoses)).1
        (if S.parents a.index.toNat ≠ -1 ∧ (rotAcc a.index.toNat).isDirty = false ∧
            a.type = TargetType.RotationOnly then _ else (rel, absPoses)).2 = _
    rw [if_neg hc]

theorem finalRotationPass_untouched (S : Skeleton)
    (constraints : ℕ → Option Constraint) (rotAcc : ℕ → Accum Quat)
    (targets : List IKTarget) (rel absPoses : ℕ → Pose) (j : ℕ)
    (h : ∀ t ∈ targets, finalPassApplies S rotAcc t → t.index.toNat ≠ j) :
    (finalRotationPass S constraints rotAcc targets rel absPoses).1 j = rel j ∧
    (finalRotationPass S constraints rotAcc targets rel absPoses).2 j = absPoses j := by
  induction targets generalizing rel absPoses with
  | nil => exact ⟨rfl, rfl⟩
  | cons a rest ih =>
    rw [finalRotationPass_cons]
    by_cases hc : finalPassApplies S rotAcc a
    · rw [if_pos hc]
      have hane : a.index.toNat ≠ j := h a (List.mem_cons_self _ _) hc
      have hrec := ih
        (upd rel a.index.toNat
          ⟨applyConstraintRot (constraints a.index.toNat)
             (Quat.mul (Quat.inverse (absPoses (S.parents a.index.toNat).toNat).rot) a.rot),
           (rel a.index.toNat).trans⟩)
        (upd absPoses a.index.toNat ⟨a.rot, (absPoses a.index.toNat).trans⟩)
        (fun t ht happ => h t (List.mem_cons_of_mem _ ht) happ)
      refine ⟨hrec.1.trans ?_, hrec.2.trans ?_⟩
      · exact upd_ne _ _ _ _ (fun hh => hane hh.symm)
      · exact upd_ne _ _ _ _ (fun hh => hane hh.symm)
    · rw [if_neg hc]
      exact ih rel absPoses (fun t ht happ => h t (List.mem_cons_of_mem _ ht) happ)

/-- Claim C5: after the relaxation loop, the final pass sets the relative
rotation of every RotationOnly target whose tip has a parent and whose
rotation accumulator is not dirty to
inverse(parent absolute rotation) * target rotation — the relative rotation
that makes the tip's absolute rotation match the target exactly — subject to
the tip's own constraint; the tip translation is untouched, and every joint
that is not the tip of a qualifying target is left unchanged by the pass. -/
theorem finalRotationPass_spec (S : Skeleton)
    (constraints : ℕ → Option Constraint) (rotAcc : ℕ → Accum Quat)
    (targets : List IKTarget) (rel absPoses : ℕ → Pose) (t : IKTarget)
    (ht : t ∈ targets)
    (happ : finalPassApplies S rotAcc t)
    (hIdx : targets.Pairwise (fun a b => a.index ≠ b.index))
    (hpos : ∀ u ∈ targets, 0 ≤ u.index)
    (hparent : ∀ u ∈ targets, u.index ≠ S.parents t.index.toNat)
    (hp0 : 0 ≤ S.parents t.index.toNat) :
    (finalRotationPass S constraints rotAcc targets rel absPoses).1 t.index.toNat =
      ⟨applyConstraintRot (constraints t.index.toNat)
         (Quat.mul (Quat.inverse (absPoses (S.parents t.index.toNat).toNat).rot) t.rot),
       (rel t.index.toNat).trans⟩ ∧
    (∀ j, (∀ u ∈ targets, finalPassApplies S rotAcc u → u.index.toNat ≠ j) →
      (finalRotationPass S constraints rotAcc targets rel absPoses).1 j = rel j) := by
  refine ⟨?_, fun j hj => (finalRotationPass_untouched S constraints rotAcc targets
    rel absPoses j hj).1⟩
  induction targets generalizing rel absPoses with
  | nil => cases ht
  | cons a rest ih =>
    rw [finalRotationPass_cons]
    rcases List.mem_cons.mp ht with rfl | htr
    · rw [if_pos happ]
      have hnottip : ∀ u ∈ rest, finalPassApplies S rotAcc u → u.index.toNat ≠ t.index.toNat := by
        intro u hu _ hconf
        have hne : t.index ≠ u.index := (List.pairwise_cons.mp hIdx).1 u hu
        have hu0 : 0 ≤ u.index := hpos u (List.mem_cons_of_mem _ hu)
        have ht0 : 0 ≤ t.index := hpos t (List.mem_cons_self _ _)
        omega
      have hfin := (finalRotationPass_untouched S constraints rotAcc rest
        (upd rel t.index.toNat
          ⟨applyConstraintRot (constraints t.index.toNat)
             (Quat.mul (Quat.inverse (absPoses (S.parents t.index.toNat).toNat).rot) t.rot),
           (rel t.index.toNat).trans⟩)
        (upd absPoses t.index.toNat ⟨t.rot, (absPoses t.index.toNat).trans⟩)
        t.index.toNat hnottip).1
      rw [hfin, upd]
      simp
    · by_cases hca : finalPassApplies S rotAcc a
      · rw [if_pos hca]
        have ha0 : 0 ≤ a.index := hpos a (List.mem_cons_self _ _)
        have ht0 : 0 ≤ t.index := hpos t (List.mem_cons_of_mem _ htr)
        have hneat : a.index ≠ t.index := (List.pairwise_cons.mp hIdx).1 t htr
        have hneatN : t.index.toNat ≠ a.index.toNat := by omega
        have hneapar : a.index ≠ S.parents t.index.toNat :=
          hparent a (List.mem_cons_self _ _)
        have hneaparN : (S.parents t.index.toNat).toNat ≠ a.index.toNat := by omega
        have hrec := ih
          (upd rel a.index.toNat
            ⟨applyConstraintRot (constraints a.index.toNat)
               (Quat.mul (Quat.inverse (absPoses (S.parents a.index.toNat).toNat).rot) a.rot),
             (rel a.index.toNat).trans⟩)
          (upd absPoses a.index.toNat ⟨a.rot, (absPoses a.index.toNat).trans⟩)
          htr (List.pairwise_cons.mp hIdx).2
          (fun u hu => hpos u (List.mem_cons_of_mem _ hu))
          (fun u hu => hparent u (List.mem_cons_of_mem _ hu))
        rw [hrec]
        rw [upd_ne _ _ _ _ hneaparN, upd_ne _ _ _ _ hneatN]
      · rw [if_neg hca]
        exact ih rel absPoses htr (List.pairwise_cons.mp hIdx).2
          (fun u hu => hpos u (List.mem_cons_of_mem _ hu))
          (fun u hu => hparent u (List.mem_cons_of_mem _ hu))

/-- Closed witness for C5 on the two-joint chain with one clean RotationOnly
target at joint 1. -/
theorem finalRotationPass_spec_witness :
    (finalRotationPass wSkel2 (fun _ => none) wAccQ [wTargetRO] wRel
        (fun _ => Pose.id)).1 wTargetRO.index.toNat =
      ⟨applyConstraintRot ((fun _ => (none : Option Constraint)) wTargetRO.index.toNat)
         (Quat.mul (Quat.inverse ((fun _ => Pose.id)
            (wSkel2.parents wTargetRO.index.toNat).toNat : Pose).rot) wTargetRO.rot),
       (wRel wTargetRO.index.toNat).trans⟩ ∧
    (∀ j, (∀ u ∈ [wTargetRO], finalPassApplies wSkel2 wAccQ u → u.index.toNat ≠ j) →
      (finalRotationPass wSkel2 (fun _ => none) wAccQ [wTargetRO] wRel
        (fun _ => Pose.id)).1 j = wRel j) :=
  finalRotationPass_spec wSkel2 (fun _ => none) wAccQ [wTargetRO] wRel
    (fun _ => Pose.id) wTargetRO (List.mem_cons_self _ _) (by decide) (by decide)
    (by decide) (by decide) (by decide)

/-! ## Claim C6: the spline translation clamp -/

theorem normSq_scale (a : ℚ) (v : Vec3) :
    Vec3.normSq (Vec3.scale a v) = a * a * Vec3.normSq v := by
  unfold Vec3.normSq Vec3.scale Vec3.dot
  ring

/-- Claim C6: for every joint processed by solveTargetWithSpline other than
the hips, the clamped relative translation's squared length lies between
(85% of the default bone length)² and (115% of the default bone length)²
whenever the unclamped length exceeds the local epsilon; a translation of
length at most the epsilon is zeroed; and the hips joint's translation is
never touched by this rule.  The hypotheses pin the oracle square root to the
Euclidean lengths the source computes. -/
theorem clampSplineTranslation_spec (O : Oracle) (isHips : Bool)
    (defaultTrans tr : Vec3)
    (hlen0 : 0 ≤ O.lengthV tr)
    (hlen : O.lengthV tr * O.lengthV tr = Vec3.normSq tr)
    (hdlen0 : 0 ≤ O.lengthV defaultTrans) :
    (isHips = true → (clampSplineTranslation O isHips defaultTrans tr).1 = tr) ∧
    (isHips = false →
      (mkRat 1 10000 < O.lengthV tr →
        ((1 - mkRat 15 100) * O.lengthV defaultTrans) *
            ((1 - mkRat 15 100) * O.lengthV defaultTrans) ≤
          Vec3.normSq (clampSplineTranslation O isHips defaultTrans tr).1 ∧
        Vec3.normSq (clampSplineTranslation O isHips defaultTrans tr).1 ≤
          ((1 + mkRat 15 100) * O.lengthV defaultTrans) *
            ((1 + mkRat 15 100) * O.lengthV defaultTrans)) ∧
      (O.lengthV tr ≤ mkRat 1 10000 →
        (clampSplineTranslation O isHips defaultTrans tr).1 = Vec3.zero)) := by
  constructor
  · intro hH
    subst hH
    rfl
  · intro hH
    subst hH
    have hf : (false = false) = True := by simp
    constructor
    · intro hgt
      have heps : (0 : ℚ) < mkRat 1 10000 := by decide
      have hLpos : 0 < O.lengthV tr := lt_trans heps hgt
      have hLne : O.lengthV tr ≠ 0 := ne_of_gt hLpos
      have hminle : (1 - mkRat 15 100) * O.lengthV defaultTrans ≤
          (1 + mkRat 15 100) * O.lengthV defaultTrans := by
        have h1 : (1 - mkRat 15 100 : ℚ) ≤ 1 + mkRat 15 100 := by decide
        nlinarith
      have hmin0 : 0 ≤ (1 - mkRat 15 100) * O.lengthV defaultTrans := by
        have h1 : (0 : ℚ) ≤ 1 - mkRat 15 100 := by decide
        positivity
      by_cases hmax : O.lengthV defaultTrans * (1 + mkRat 15 100) < O.lengthV tr
      · have hcl : (clampSplineTranslation O false defaultTrans tr).1 =
            Vec3.scale (O.lengthV defaultTrans * (1 + mkRat 15 100))
              (Vec3.scale (qinv (O.lengthV tr)) tr) := by
          unfold clampSplineTranslation
          rw [if_pos rfl, if_pos hgt, if_pos hmax]
        rw [hcl]
        have hout : Vec3.normSq (Vec3.scale (O.lengthV defaultTrans * (1 + mkRat 15 100))
            (Vec3.scale (qinv (O.lengthV tr)) tr)) =
            (O.lengthV defaultTrans * (1 + mkRat 15 100)) *
              (O.lengthV defaultTrans * (1 + mkRat 15 100)) := by
          rw [normSq_scale, normSq_scale, ← hlen, qinv_eq]
          field_simp
        rw [hout]
        constructor
        · nlinarith [mul_self_le_mul_self hmin0 hminle]
        · nlinarith
      · by_cases hmin : O.lengthV tr < O.lengthV defaultTrans * (1 - mkRat 15 100)
        · have hcl : (clampSplineTranslation O false defaultTrans tr).1 =
              Vec3.scale (O.lengthV defaultTrans * (1 - mkRat 15 100))
                (Vec3.scale (qinv (O.lengthV tr)) tr) := by
            unfold clampSplineTranslation
            rw [if_pos rfl, if_pos hgt, if_neg hmax, if_pos hmin]
          rw [hcl]
          have hout : Vec3.normSq (Vec3.scale (O.lengthV defaultTrans * (1 - mkRat 15 100))
              (Vec3.scale (qinv (O.lengthV tr)) tr)) =
              (O.lengthV defaultTrans * (1 - mkRat 15 100)) *
                (O.lengthV defaultTrans * (1 - mkRat 15 100)) := by
            rw [normSq_scale, normSq_scale, ← hlen, qinv_eq]
            field_simp
          rw [hout]
          constructor
          · nlinarith
          · nlinarith [mul_self_le_mul_self hmin0 hminle]
        · have hcl : (clampSplineTranslation O false defaultTrans tr).1 = tr := by
            unfold clampSplineTranslation
            rw [if_pos rfl, if_pos hgt, if_neg hmax, if_neg hmin]
          rw [hcl]
          push_neg at hmax hmin
          constructor
          · nlinarith
          · nlinarith
    · intro hle
      have hnot : ¬ mkRat 1 10000 < O.lengthV tr := not_lt.mpr hle
      have hcl : (clampSplineTranslation O false defaultTrans tr).1 = Vec3.zero := by
        unfold clampSplineTranslation
        rw [if_pos rfl, if_neg hnot]
      exact hcl

/-- Closed witness for C6: a translation of length 2 against a default bone
length of 1 is clamped into the ±15% band. -/
theorem clampSplineTranslation_spec_witness :
    ((1 - mkRat 15 100) * wSqrtO.lengthV wDefTrans) *
        ((1 - mkRat 15 100) * wSqrtO.lengthV wDefTrans) ≤
      Vec3.normSq (clampSplineTranslation wSqrtO false wDefTrans wTr).1 ∧
    Vec3.normSq (clampSplineTranslation wSqrtO false wDefTrans wTr).1 ≤
      ((1 + mkRat 15 100) * wSqrtO.lengthV wDefTrans) *
        ((1 + mkRat 15 100) * wSqrtO.lengthV wDefTrans) :=
  ((clampSplineTranslation_spec wSqrtO false wDefTrans wTr (by decide) (by decide)
    (by decide)).2 rfl).1 (by decide)

/-! ## Claim C7: the desired hips offset -/

theorem Vec3.add_zero' (v : Vec3) : v + Vec3.zero = v := by
  cases v with
  | mk x y z =>
    show Vec3.add _ _ = _
    unfold Vec3.add Vec3.zero
    simp only [Vec3.mk.injEq]
    refine ⟨by ring, by ring, by ring⟩

theorem Vec3.zero_add' (v : Vec3) : Vec3.zero + v = v := by
  cases v with
  | mk x y z =>
    show Vec3.add _ _ = _
    unfold Vec3.add Vec3.zero
    simp only [Vec3.mk.injEq]
    refine ⟨by ring, by ring, by ring⟩

theorem Vec3.add_assoc' (a b c : Vec3) : a + b + c = a + (b + c) := by
  cases a with
  | mk x1 y1 z1 =>
    cases b with
    | mk x2 y2 z2 =>
      cases c with
      | mk x3 y3 z3 =>
        show Vec3.add (Vec3.add _ _) _ = Vec3.add _ (Vec3.add _ _)
        unfold Vec3.add
        simp only [Vec3.mk.injEq]
        refine ⟨by ring, by ring, by ring⟩

/-- Head-free target lists contribute exactly the plain sum. -/
theorem hipsOffsetLoop_no_head (S : Skeleton) (headIndex : Int)
    (under rel : ℕ → Pose) :
    ∀ (ts : List IKTarget) (acc off : Vec3),
      (∀ t ∈ ts, ¬(t.index = headIndex ∧ headIndex ≠ -1)) →
      hipsOffsetLoop S headIndex under rel ts acc off =
        (acc + sumPositionalDeltas S rel ts, off) := by
  intro ts
  induction ts with
  | nil =>
    intro acc off _
    rw [hipsOffsetLoop, sumPositionalDeltas, Vec3.add_zero']
  | cons t rest ih =>
    intro acc off h
    have hhead : ¬(t.index = headIndex ∧ headIndex ≠ -1) :=
      h t (List.mem_cons_self _ _)
    rw [hipsOffsetLoop, if_neg hhead, sumPositionalDeltas]
    by_cases htype : t.type = TargetType.RotationAndPosition
    · rw [if_pos htype, if_pos htype,
        ih _ off (fun u hu => h u (List.mem_cons_of_mem _ hu)), Vec3.add_assoc']
    · rw [if_neg htype, if_neg htype,
        ih _ off (fun u hu => h u (List.mem_cons_of_mem _ hu))]

theorem hipsOffsetLoop_append_no_head (S : Skeleton) (headIndex : Int)
    (under rel : ℕ → Pose) :
    ∀ (pre l : List IKTarget) (acc off : Vec3),
      (∀ t ∈ pre, ¬(t.index = headIndex ∧ headIndex ≠ -1)) →
      hipsOffsetLoop S headIndex under rel (pre ++ l) acc off =
        hipsOffsetLoop S headIndex under rel l
          (acc + sumPositionalDeltas S rel pre) off := by
  intro pre
  induction pre with
  | nil =>
    intro l acc off _
    rw [List.nil_append, sumPositionalDeltas, Vec3.add_zero']
  | cons t rest ih =>
    intro l acc off h
    have hhead : ¬(t.index = headIndex ∧ headIndex ≠ -1) :=
      h t (List.mem_cons_self _ _)
    rw [List.cons_append, hipsOffsetLoop, if_neg hhead, sumPositionalDeltas]
    by_cases htype : t.type = TargetType.RotationAndPosition
    · rw [if_pos htype, if_pos htype,
        ih _ _ off (fun u hu => h u (List.mem_cons_of_mem _ hu)), Vec3.add_assoc']
    · rw [if_neg htype, if_neg htype,
        ih _ _ off (fun u hu => h u (List.mem_cons_of_mem _ hu))]

/-- C7 counterexample: with a head RotationAndPosition target and one hand
target, both with zero discrepancy (the unbiased sum is the zero vector),
the accumulated desired hips offset is (−1,−1,−1): the "downward pressure"
is the one-shot affine map 0.95·acc − (1,1,1) applied inside the head
branch, shifting the x and z components too, not a bias of the form
(0,−b,0) with b ≥ 0 added to the sum — so no nonnegative downward-bias
decomposition of the computed offset exists. -/
theorem computeHipsOffset_downward_bias_counterexample :
    (hipsOffsetLoop wSkel2 0 (fun _ => Pose.id) (fun _ => Pose.id)
        [wHeadT, wHandT] Vec3.zero Vec3.zero).1 = ⟨-1, -1, -1⟩ ∧
    sumPositionalDeltas wSkel2 (fun _ => Pose.id) [wHeadT, wHandT] =
      Vec3.zero ∧
    ¬ ∃ b : ℚ, 0 ≤ b ∧
      (hipsOffsetLoop wSkel2 0 (fun _ => Pose.id) (fun _ => Pose.id)
          [wHeadT, wHandT] Vec3.zero Vec3.zero).1 =
        sumPositionalDeltas wSkel2 (fun _ => Pose.id) [wHeadT, wHandT] +
          (⟨0, -b, 0⟩ : Vec3) := by
  refine ⟨by decide, by decide, ?_⟩
  rintro ⟨b, hb, he⟩
  have h1 : (hipsOffsetLoop wSkel2 0 (fun _ => Pose.id) (fun _ => Pose.id)
      [wHeadT, wHandT] Vec3.zero Vec3.zero).1 = (⟨-1, -1, -1⟩ : Vec3) := by
    decide
  have h2 : sumPositionalDeltas wSkel2 (fun _ => Pose.id) [wHeadT, wHandT] =
      Vec3.zero := by decide
  rw [h1, h2] at he
  have hx := congrArg Vec3.x he
  simp only [Vec3.zero] at hx
  have hx' : (-1 : ℚ) = 0 + 0 := hx
  norm_num at hx'

/-- C7 (amended): with no explicit pelvis target, the desired hips offset
accumulated by computeHipsOffset before low-pass filtering is: (a) when a
head RotationAndPosition target is present (and no other target carries the
head index), the one-shot affine "downward pressure" map applied at the head
target — 0.95 times the running sum up to and including the head's own
(target − achieved) discrepancy, minus 1 in every component — plus the plain
discrepancy sum of the remaining targets; (b) when no target carries the
head index, the plain sum over RotationAndPosition targets of
(target position − achieved position), with no bias term at all. -/
theorem computeHipsOffset_desired_offset (S : Skeleton) (headIndex : Int)
    (under rel : ℕ → Pose) (pre post : List IKTarget) (h : IKTarget)
    (off : Vec3)
    (hpre : ∀ t ∈ pre, t.index ≠ headIndex)
    (hpost : ∀ t ∈ post, t.index ≠ headIndex)
    (hh : h.index = headIndex) (hne : headIndex ≠ -1)
    (ht : h.type = TargetType.RotationAndPosition) :
    (hipsOffsetLoop S headIndex under rel (pre ++ h :: post)
        Vec3.zero off).1 =
      Vec3.subScalar (Vec3.scale (mkRat 95 100)
        (sumPositionalDeltas S rel pre +
          (h.trans - (absPoseOf S rel h.index.toNat).trans))) 1 +
        sumPositionalDeltas S rel post ∧
    ∀ ts : List IKTarget, (∀ t ∈ ts, t.index ≠ headIndex) →
      (hipsOffsetLoop S headIndex under rel ts Vec3.zero off).1 =
        sumPositionalDeltas S rel ts := by
  constructor
  · rw [hipsOffsetLoop_append_no_head S headIndex under rel pre (h :: post)
      Vec3.zero off (fun t htm hc => hpre t htm hc.1), Vec3.zero_add',
      hipsOffsetLoop, if_pos ⟨hh, hne⟩,
      if_neg (by rw [ht]; intro hcon; exact TargetType.noConfusion hcon),
      if_neg (by rw [ht]; intro hcon; exact TargetType.noConfusion hcon),
      if_pos ht,
      hipsOffsetLoop_no_head S headIndex under rel post _ off
        (fun t htm hc => hpost t htm hc.1)]
  · intro ts hts
    rw [hipsOffsetLoop_no_head S headIndex under rel ts Vec3.zero off
      (fun t htm hc => hts t htm hc.1)]
    exact Vec3.zero_add' _

theorem computeHipsOffset_desired_offset_witness :
    ((hipsOffsetLoop wSkel2 0 (fun _ => Pose.id) (fun _ => Pose.id)
        ([] ++ wHeadT :: [wHandT]) Vec3.zero Vec3.zero).1 =
      Vec3.subScalar (Vec3.scale (mkRat 95 100)
        (sumPositionalDeltas wSkel2 (fun _ => Pose.id) [] +
          (wHeadT.trans -
            (absPoseOf wSkel2 (fun _ => Pose.id) wHeadT.index.toNat).trans))) 1 +
        sumPositionalDeltas wSkel2 (fun _ => Pose.id) [wHandT] ∧
    ∀ ts : List IKTarget, (∀ t ∈ ts, t.index ≠ 0) →
      (hipsOffsetLoop wSkel2 0 (fun _ => Pose.id) (fun _ => Pose.id) ts
          Vec3.zero Vec3.zero).1 =
        sumPositionalDeltas wSkel2 (fun _ => Pose.id) ts) :=
  computeHipsOffset_desired_offset wSkel2 0 (fun _ => Pose.id)
    (fun _ => Pose.id) [] [wHandT] wHeadT Vec3.zero
    (by decide) (by decide) (by decide) (by decide) (by decide)

theorem finalizeUncontrolled_core (S : Skeleton) (under : ℕ → Pose)
    (st : IKState) :
    (finalizeUncontrolled S under st).relativePoses = st.relativePoses ∧
    (finalizeUncontrolled S under st).rotAcc = st.rotAcc ∧
    (finalizeUncontrolled S under st).transAcc = st.transAcc := by
  simp only [finalizeUncontrolled]
  split <;> split <;> split <;> exact ⟨rfl, rfl, rfl⟩

theorem overlay_empty_state (O : Oracle) (S : Skeleton) (ctx : AnimContext)
    (vars : AnimVars) (dt : ℚ) (under : ℕ → Pose) (st : IKState)
    (h0 : st.relSize ≠ 0)
    (hct : (computeTargets O S vars under st.hipsIndex st.targetVarVec).targets
      = []) :
    overlay O S ctx vars dt st.relSize under st =
      finalizeUncontrolled S under
        { st with
          relativePoses := under
          targetVarVec := (computeTargets O S vars under st.hipsIndex
            st.targetVarVec).targetVarVec
          maxTargetIndex := (computeTargets O S vars under st.hipsIndex
            st.targetVarVec).maxTargetIndex
          hipsTargetIndex := (computeTargets O S vars under st.hipsIndex
            st.targetVarVec).hipsTargetIndex } := by
  have hA : ¬(st.relSize ≠ st.relSize) := fun hc => hc rfl
  simp -zeta only [overlay, if_neg hA]
  lift_lets
  intro sS dtC rI st1 ct st2 rA sh uh aO t2 st2b r2 idx so st4 nO st3
  have hc2 : st1.relSize ≠ 0 := h0
  rw [if_pos hc2]
  have hie : ct.targets.isEmpty = true := by
    have hct' : ct.targets = [] := hct
    rw [hct']
    rfl
  unfold st3
  rw [if_pos hie]

/-- C8 counterexample: overlay called on a state whose joint-0 rotation
accumulator is dirty from a previous frame and whose computed target list is
empty returns with that accumulator still dirty — the empty-target early-out
assigns the under poses but never touches the accumulators, so they are not
"left non-dirty". -/
theorem overlay_empty_targets_dirty_counterexample :
    (computeTargets wOracle wSkel2 wVars (fun _ => Pose.id) wStDirty.hipsIndex
      wStDirty.targetVarVec).targets = [] ∧
    ((overlay wOracle wSkel2 wCtx wVars 0 wStDirty.relSize (fun _ => Pose.id)
      wStDirty).rotAcc 0).isDirty = true := by
  refine ⟨by decide, by decide⟩

/-- C8 (amended): when the relative-pose size matches the under-pose size and
is nonzero, and the target list computed from the target vars is empty,
overlay returns exactly the incoming under poses — with no hips-offset
adjustment, which only happens on the non-empty branch — and every joint's
rotation and translation accumulator (its samples and its dirty flag alike)
is returned exactly as it was at entry, not cleared and not cleaned. -/
theorem overlay_empty_targets (O : Oracle) (S : Skeleton) (ctx : AnimContext)
    (vars : AnimVars) (dt : ℚ) (under : ℕ → Pose) (st : IKState)
    (h0 : st.relSize ≠ 0)
    (hct : (computeTargets O S vars under st.hipsIndex st.targetVarVec).targets
      = []) :
    (overlay O S ctx vars dt st.relSize under st).relativePoses = under ∧
    (overlay O S ctx vars dt st.relSize under st).rotAcc = st.rotAcc ∧
    (overlay O S ctx vars dt st.relSize under st).transAcc = st.transAcc := by
  rw [overlay_empty_state O S ctx vars dt under st h0 hct]
  obtain ⟨f1, f2, f3⟩ := finalizeUncontrolled_core S under
    { st with
      relativePoses := under
      targetVarVec := (computeTargets O S vars under st.hipsIndex
        st.targetVarVec).targetVarVec
      maxTargetIndex := (computeTargets O S vars under st.hipsIndex
        st.targetVarVec).maxTargetIndex
      hipsTargetIndex := (computeTargets O S vars under st.hipsIndex
        st.targetVarVec).hipsTargetIndex }
  exact ⟨f1.trans rfl, f2.trans rfl, f3.trans rfl⟩

theorem overlay_empty_targets_witness :
    (overlay wOracle wSkel2 wCtx wVars 0 wStDirty.relSize (fun _ => Pose.id)
      wStDirty).relativePoses = (fun _ => Pose.id) ∧
    (overlay wOracle wSkel2 wCtx wVars 0 wStDirty.relSize (fun _ => Pose.id)
      wStDirty).rotAcc = wStDirty.rotAcc ∧
    (overlay wOracle wSkel2 wCtx wVars 0 wStDirty.relSize (fun _ => Pose.id)
      wStDirty).transAcc = wStDirty.transAcc :=
  overlay_empty_targets wOracle wSkel2 wCtx wVars 0 (fun _ => Pose.id)
    wStDirty (by decide) (by decide)

/-! ## Claim C9: overlay is deterministic -/

/-- C9: overlay is a pure function of the skeleton, the context, the
animation variables, the delta time, the under poses and the prior solver
state: two calls with identical inputs (same library-math oracle, i.e. the
same program) return identical pose arrays, with no hidden source of
nondeterminism. -/
theorem overlay_deterministic (O : Oracle) (S1 S2 : Skeleton)
    (ctx1 ctx2 : AnimContext) (vars1 vars2 : AnimVars) (dt1 dt2 : ℚ)
    (n1 n2 : ℕ) (u1 u2 : ℕ → Pose) (st1 st2 : IKState)
    (hS : S1 = S2) (hctx : ctx1 = ctx2) (hv : vars1 = vars2)
    (hdt : dt1 = dt2) (hn : n1 = n2) (hu : u1 = u2) (hst : st1 = st2) :
    (overlay O S1 ctx1 vars1 dt1 n1 u1 st1).relativePoses =
      (overlay O S2 ctx2 vars2 dt2 n2 u2 st2).relativePoses := by
  subst hS
  subst hctx
  subst hv
  subst hdt
  subst hn
  subst hu
  subst hst
  rfl

theorem overlay_deterministic_witness :
    (overlay wOracle wSkel2 wCtx wVars 0 1 (fun _ => Pose.id)
      wStDirty).relativePoses =
    (overlay wOracle wSkel2 wCtx wVars 0 1 (fun _ => Pose.id)
      wStDirty).relativePoses :=
  overlay_deterministic wOracle wSkel2 wSkel2 wCtx wCtx wVars wVars 0 0 1 1
    (fun _ => Pose.id) (fun _ => Pose.id) wStDirty wStDirty
    rfl rfl rfl rfl rfl rfl rfl

theorem ctFoldl_vars (O : Oracle) (S : Skeleton) (vars : AnimVars)
    (under : ℕ → Pose) (hips : Int) :
    ∀ (l : List IKTargetVar) (st : CTState),
      (List.foldl (computeTargetsStep O S vars under hips) st l).vars =
        st.vars ++ l.map (ctProcessVar S) := by
  intro l
  induction l with
  | nil => intro st; simp
  | cons t rest ih =>
    intro st
    rw [List.foldl_cons, ih, List.map_cons]
    have hv : (computeTargetsStep O S vars under hips st t).vars =
        st.vars ++ [ctProcessVar S t] := by
      simp only [computeTargetsStep, ctProcessVar]
      split_ifs <;> rfl
    rw [hv, List.append_assoc]
    rfl

theorem ctFoldl_removeUnfound_mono (O : Oracle) (S : Skeleton)
    (vars : AnimVars) (under : ℕ → Pose) (hips : Int) :
    ∀ (l : List IKTargetVar) (st : CTState), st.removeUnfound = true →
      (List.foldl (computeTargetsStep O S vars under hips) st l).removeUnfound
        = true := by
  intro l
  induction l with
  | nil => intro st hst; exact hst
  | cons t rest ih =>
    intro st hst
    rw [List.foldl_cons]
    refine ih _ ?_
    simp only [computeTargetsStep]
    split_ifs <;> (first | exact hst | rfl)

theorem ctFoldl_removeUnfound_false (O : Oracle) (S : Skeleton)
    (vars : AnimVars) (under : ℕ → Pose) (hips : Int) :
    ∀ (l : List IKTargetVar) (st : CTState),
      (List.foldl (computeTargetsStep O S vars under hips) st l).removeUnfound
        = false →
      ∀ v ∈ l, (ctProcessVar S v).jointIndex ≠ -1 := by
  intro l
  induction l with
  | nil => intro st _ v hv; exact absurd hv (List.not_mem_nil v)
  | cons t rest ih =>
    intro st hfold v hv
    rw [List.foldl_cons] at hfold
    rcases List.mem_cons.mp hv with hvt | hvr
    · subst hvt
      by_cases h1 : v.jointIndex = -1
      · by_cases h2 : 0 ≤ S.nameToJointIndex v.jointName
        · simp only [ctProcessVar]
          rw [if_pos h1, if_pos h2]
          intro hc
          have : S.nameToJointIndex v.jointName = -1 := hc
          omega
        · exfalso
          have hset : (computeTargetsStep O S vars under hips st
              v).removeUnfound = true := by
            simp only [computeTargetsStep]
            rw [if_pos h1, if_neg h2]
          rw [ctFoldl_removeUnfound_mono O S vars under hips rest _ hset]
            at hfold
          exact absurd hfold (by simp)
      · simp only [ctProcessVar]
        rw [if_neg h1]
        exact h1
    · exact ih _ hfold v hvr

theorem ctFoldl_targets_filter (O : Oracle) (S : Skeleton) (vars : AnimVars)
    (under : ℕ → Pose) (hips : Int) :
    ∀ (l : List IKTargetVar) (st1 st2 : CTState),
      st1.targets = st2.targets →
      (List.foldl (computeTargetsStep O S vars under hips) st1 l).targets =
        (List.foldl (computeTargetsStep O S vars under hips) st2
          (l.filter (fun v => v.jointIndex != -1))).targets := by
  intro l
  induction l with
  | nil => intro st1 st2 heq; exact heq
  | cons t rest ih =>
    intro st1 st2 heq
    by_cases h1 : t.jointIndex = -1
    · rw [List.foldl_cons,
        List.filter_cons_of_neg (by simp [h1])]
      refine ih _ _ ?_
      have : (computeTargetsStep O S vars under hips st1 t).targets =
          st1.targets := by
        simp only [computeTargetsStep]
        rw [if_pos h1]
        split <;> rfl
      rw [this, heq]
    · rw [List.foldl_cons,
        List.filter_cons_of_pos (by simp [h1]), List.foldl_cons]
      refine ih _ _ ?_
      simp only [computeTargetsStep]
      rw [if_neg h1, if_neg h1]
      split
      · show st1.targets ++ _ = st2.targets ++ _
        rw [heq]
      · exact heq

theorem removeUnfoundLoop_mem (w : IKTargetVar) (hw : w.jointIndex ≠ -1) :
    ∀ (fuel : ℕ) (l : List IKTargetVar) (i : ℕ), w ∈ l →
      w ∈ removeUnfoundLoop fuel l i := by
  intro fuel
  induction fuel with
  | zero => intro l i hmem; exact hmem
  | succ fuel ih =>
    intro l i hmem
    rw [removeUnfoundLoop]
    by_cases h : i < l.length
    · rw [dif_pos h]
      by_cases hneg : (l.get ⟨i, h⟩).jointIndex = -1
      · rw [if_pos hneg]
        refine ih _ i ?_
        obtain ⟨k, hk, hkw⟩ := List.mem_iff_getElem.mp hmem
        have hki : k ≠ i := by
          intro hc
          subst hc
          rw [List.get_eq_getElem, hkw] at hneg
          exact hw hneg
        by_cases hlen : 1 < l.length
        · rw [if_pos hlen]
          by_cases hlast : k = l.length - 1
          · -- w is the last element: it is copied into slot i, which survives
            subst hlast
            refine List.mem_iff_getElem.mpr ⟨i, ?_, ?_⟩
            · rw [List.length_dropLast, List.length_set]
              omega
            · have hset : i < (l.set i (l.getD (l.length - 1) default)).length := by
                rw [List.length_set]; exact h
              have hi2 : i < (l.set i (l.getD (l.length - 1) default)).dropLast.length := by
                rw [List.length_dropLast, List.length_set]; omega
              rw [List.getElem_dropLast, List.getElem_set_self hset,
                List.getD_eq_getElem l default (by omega)]
              exact hkw
          · refine List.mem_iff_getElem.mpr ⟨k, ?_, ?_⟩
            · rw [List.length_dropLast, List.length_set]
              omega
            · have hk2 : k < (l.set i (l.getD (l.length - 1) default)).dropLast.length := by
                rw [List.length_dropLast, List.length_set]; omega
              rw [List.getElem_dropLast, List.getElem_set_ne (Ne.symm hki)]
              exact hkw
        · rw [if_neg hlen]
          exfalso
          have hk0 : k = 0 := by omega
          have hi0 : i = 0 := by omega
          subst hk0
          subst hi0
          rw [List.get_eq_getElem, hkw] at hneg
          exact hw hneg
      · rw [if_neg hneg]
        exact ih _ _ hmem
    · rw [dif_neg h]
      exact hmem

theorem removeUnfoundLoop_all_resolved :
    ∀ (fuel : ℕ) (l : List IKTargetVar) (i : ℕ),
      (∀ k (hk : k < l.length), k < i → (l.get ⟨k, hk⟩).jointIndex ≠ -1) →
      l.length + (l.length - i) < fuel →
      ∀ w ∈ removeUnfoundLoop fuel l i, w.jointIndex ≠ -1 := by
  intro fuel
  induction fuel with
  | zero => intro l i _ hfuel; omega
  | succ fuel ih =>
    intro l i hinv hfuel
    rw [removeUnfoundLoop]
    by_cases h : i < l.length
    · rw [dif_pos h]
      by_cases hneg : (l.get ⟨i, h⟩).jointIndex = -1
      · rw [if_pos hneg]
        by_cases hlen : 1 < l.length
        · rw [if_pos hlen]
          refine ih _ i ?_ ?_
          · intro k hk hki
            have hk2 : k < l.length := by
              rw [List.length_dropLast, List.length_set] at hk
              omega
            have hkne : i ≠ k := by omega
            rw [List.get_eq_getElem, List.getElem_dropLast,
              List.getElem_set_ne hkne]
            have := hinv k hk2 hki
            rw [List.get_eq_getElem] at this
            exact this
          · rw [List.length_dropLast, List.length_set]
            omega
        · rw [if_neg hlen]
          refine ih _ i ?_ ?_
          · intro k hk hki
            rw [List.length_dropLast] at hk
            omega
          · rw [List.length_dropLast]
            omega
      · rw [if_neg hneg]
        refine ih _ (i + 1) ?_ ?_
        · intro k hk hki
          by_cases hkie : k = i
          · subst hkie
            exact hneg
          · exact hinv k hk (by omega)
        · omega
    · rw [dif_neg h]
      intro w hmem
      obtain ⟨k, hk, hkw⟩ := List.mem_iff_getElem.mp hmem
      have := hinv k hk (by omega)
      rw [List.get_eq_getElem, hkw] at this
      exact this

theorem computeTargets_targets_eq (O : Oracle) (S : Skeleton)
    (vars : AnimVars) (under : ℕ → Pose) (hips : Int)
    (varVec : List IKTargetVar) :
    (computeTargets O S vars under hips varVec).targets =
      (List.foldl (computeTargetsStep O S vars under hips)
        ⟨[], [], -1, -1, false⟩ varVec).targets := rfl

theorem computeTargets_vars_eq (O : Oracle) (S : Skeleton)
    (vars : AnimVars) (under : ℕ → Pose) (hips : Int)
    (varVec : List IKTargetVar) :
    (computeTargets O S vars under hips varVec).targetVarVec =
      (if (List.foldl (computeTargetsStep O S vars under hips)
            ⟨[], [], -1, -1, false⟩ varVec).removeUnfound = true
       then removeUnfoundLoop
         (2 * (List.foldl (computeTargetsStep O S vars under hips)
            ⟨[], [], -1, -1, false⟩ varVec).vars.length + 1)
         (List.foldl (computeTargetsStep O S vars under hips)
            ⟨[], [], -1, -1, false⟩ varVec).vars 0
       else (List.foldl (computeTargetsStep O S vars under hips)
            ⟨[], [], -1, -1, false⟩ varVec).vars) := rfl

/-- C10: a target var whose joint index is unresolved (-1) at the start of a
computeTargets call never yields an IKTarget in that same call (the produced
target list is the one computed from the already-resolved vars alone); the
call at most caches the resolved joint index on the var — the cached var is
in the returned var vector — and after the call no unresolved var remains in
the vector (failed vars are dropped by the compaction loop). -/
theorem computeTargets_unresolved_deferred (O : Oracle) (S : Skeleton)
    (vars : AnimVars) (under : ℕ → Pose) (hips : Int)
    (varVec : List IKTargetVar) :
    (computeTargets O S vars under hips varVec).targets =
      (computeTargets O S vars under hips
        (varVec.filter (fun v => v.jointIndex != -1))).targets ∧
    (∀ v ∈ varVec, v.jointIndex = -1 →
      0 ≤ S.nameToJointIndex v.jointName →
      { v with jointIndex := S.nameToJointIndex v.jointName } ∈
        (computeTargets O S vars under hips varVec).targetVarVec) ∧
    (∀ w ∈ (computeTargets O S vars under hips varVec).targetVarVec,
      w.jointIndex ≠ -1) := by
  refine ⟨?_, ?_, ?_⟩
  · rw [computeTargets_targets_eq, computeTargets_targets_eq]
    exact ctFoldl_targets_filter O S vars under hips varVec _ _ rfl
  · intro v hv hv1 h2
    have hproc : ctProcessVar S v =
        { v with jointIndex := S.nameToJointIndex v.jointName } := by
      simp only [ctProcessVar]
      rw [if_pos hv1, if_pos h2]
    have hmem : { v with jointIndex := S.nameToJointIndex v.jointName } ∈
        (List.foldl (computeTargetsStep O S vars under hips)
          ⟨[], [], -1, -1, false⟩ varVec).vars := by
      rw [ctFoldl_vars]
      rw [List.nil_append]
      exact hproc ▸ List.mem_map_of_mem (ctProcessVar S) hv
    have hne : ({ v with jointIndex := S.nameToJointIndex v.jointName }
        : IKTargetVar).jointIndex ≠ -1 := by
      intro hc
      have : S.nameToJointIndex v.jointName = -1 := hc
      omega
    rw [computeTargets_vars_eq]
    by_cases hru : (List.foldl (computeTargetsStep O S vars under hips)
        ⟨[], [], -1, -1, false⟩ varVec).removeUnfound = true
    · rw [if_pos hru]
      exact removeUnfoundLoop_mem _ hne _ _ _ hmem
    · rw [if_neg hru]
      exact hmem
  · intro w
    rw [computeTargets_vars_eq]
    by_cases hru : (List.foldl (computeTargetsStep O S vars under hips)
        ⟨[], [], -1, -1, false⟩ varVec).removeUnfound = true
    · rw [if_pos hru]
      intro hmem
      exact removeUnfoundLoop_all_resolved _ _ 0
        (fun k hk hki => absurd hki (by omega)) (by omega) w hmem
    · rw [if_neg hru]
      intro hmem
      rw [ctFoldl_vars, List.nil_append] at hmem
      obtain ⟨v, hvmem, hveq⟩ := List.mem_map.mp hmem
      rw [← hveq]
      exact ctFoldl_removeUnfound_false O S vars under hips varVec _
        (Bool.not_eq_true _ ▸ hru) v hvmem

theorem computeTargets_unresolved_deferred_witness :
    ({ wTVv with jointIndex := 1 } : IKTargetVar) ∈
      (computeTargets wOracle wSkelN wVars (fun _ => Pose.id) (-1)
        [wTVv]).targetVarVec :=
  (computeTargets_unresolved_deferred wOracle wSkelN wVars (fun _ => Pose.id)
    (-1) [wTVv]).2.1 wTVv (by decide) (by decide) (by decide)

end HifiIK